import Mathlib

/-!
Verification development for the auto_tower screen-automation script
(src/auto_tower.py).  The script drives an emulator window by template
matching and synthetic clicks.  We shallowly embed the pure decision
logic:

* images and correlation results are modelled over exact rationals, the
  normalized cross-correlation primitive (cv2.matchTemplate) being an
  external collaborator supplied as a function argument corrFn;
* the filesystem of template assets is modelled as a function
  disk : String -> Option Mat (None models a missing or unreadable file);
* the control plane (pause / stop hotkeys) is modelled as a stream of
  control readings; the cooperative-cancellation exception raised by
  check_pause_and_running is an Except error value;
* every routine with side effects returns a trace of emitted events,
  each tagged with the index of the suspension point (check of the
  control flags) that authorized it.
-/

/-- The default matching threshold 0.80 of the source (the rational is
built by its constructor so that kernel reduction works on it). -/
def IMAGE_MATCH_THRESHOLD : ℚ := ⟨4, 5, by norm_num, by norm_num⟩

/-- The looser 0.7 threshold used for the stylized select and
select_confirm icons. -/
def THRESHOLD_07 : ℚ := ⟨7, 10, by norm_num, by norm_num⟩

/-- The explicit 0.8 threshold passed at most call sites. -/
def THRESHOLD_08 : ℚ := ⟨4, 5, by norm_num, by norm_num⟩

/-- The stricter 0.9 threshold used for the hundred token. -/
def THRESHOLD_09 : ℚ := ⟨9, 10, by norm_num, by norm_num⟩

/-- An image: pixel grid of the emulator frame or of a template asset,
modelled abstractly by its dimensions and rational-valued content
(cv2 images, channel data abstracted). -/
structure Mat where
  height : Nat
  width : Nat
  data : List (List ℚ)
deriving DecidableEq

/-- A window rectangle (left, top, width, height) in screen coordinates,
as returned by the window locator. -/
structure Rect where
  left : Int
  top : Int
  width : Int
  height : Int
deriving DecidableEq

/-- Row-major list of entries of a correlation-result matrix, each with
its (x, y) location: row index is y, column index is x.  This is the
order in which cv2.minMaxLoc scans and in which np.where reports
locations. -/
def gridEntries (result : List (List ℚ)) : List ((Int × Int) × ℚ) :=
  (result.enum).flatMap (fun r => (r.2.enum).map (fun c => (((c.1 : Int), (r.1 : Int)), c.2)))

/-- The maximum entry of a correlation result together with its location
(first occurrence wins on ties), as reported by cv2.minMaxLoc; none on
an empty result. -/
def pickMax : List ((Int × Int) × ℚ) → Option ((Int × Int) × ℚ)
  | [] => none
  | e :: rest =>
    match pickMax rest with
    | none => some e
    | some b => some (if e.2 < b.2 then b else e)

/-- match_template (auto_tower.py lines 113-125): None guard on both
inputs, then run the correlation primitive, take the best score, report
the centered location when the score is at least the threshold.
corrFn models cv2.matchTemplate with TM_CCOEFF_NORMED. -/
def match_template (corrFn : Mat → Mat → List (List ℚ)) (src template : Option Mat)
    (threshold : ℚ) : Option (Int × Int) :=
  match src, template with
  | some s, some t =>
    match pickMax (gridEntries (corrFn s t)) with
    | none => none
    | some (loc, max_val) =>
      if max_val < threshold then none
      else some (loc.1 + ((t.width / 2 : Nat) : Int), loc.2 + ((t.height / 2 : Nat) : Int))
  | _, _ => none

/-- Manhattan distance between two points. -/
def manhattan (a b : Int × Int) : Int := |a.1 - b.1| + |a.2 - b.2|

/-- Comparison used by centers.sort(key p. (p[1], p[0])): by y first,
then x. -/
def yxLe (a b : Int × Int) : Bool := a.2 < b.2 || (a.2 == b.2 && a.1 ≤ b.1)

/-- Insertion into a list sorted by yxLe. -/
def insertYX (a : Int × Int) : List (Int × Int) → List (Int × Int)
  | [] => [a]
  | b :: rest => if yxLe a b then a :: b :: rest else b :: insertYX a rest

/-- Sorting of candidate centers by (y, x).  The source uses the stable
Python list sort with key (p[1], p[0]); since comparison-equal pairs are
identical, any sort by the same order yields the same list, so an
insertion sort is a faithful model. -/
def sortYX : List (Int × Int) → List (Int × Int)
  | [] => []
  | a :: rest => insertYX a (sortYX rest)

/-- Greedy spatial de-duplication (auto_tower.py lines 231-240): keep a
candidate only when no already-kept point is at Manhattan distance
strictly below min_dist = 20. -/
def greedyKeep (filtered : List (Int × Int)) : List (Int × Int) → List (Int × Int)
  | [] => filtered
  | c :: rest =>
    if filtered.all (fun f => !decide (manhattan c f < 20)) then
      greedyKeep (filtered ++ [c]) rest
    else greedyKeep filtered rest

/-- find_all_matches (auto_tower.py lines 221-241): None guards, collect
all locations scoring at least the threshold (np.where(result >=
threshold)), center them, sort top-to-bottom left-to-right, then
de-duplicate greedily. -/
def find_all_matches (corrFn : Mat → Mat → List (List ℚ)) (img template : Option Mat)
    (threshold : ℚ) : List (Int × Int) :=
  match img, template with
  | some i, some t =>
    let locs := (gridEntries (corrFn i t)).filter (fun e => threshold ≤ e.2)
    if locs.isEmpty then []
    else
      let centers := locs.map (fun e =>
        (e.1.1 + ((t.width / 2 : Nat) : Int), e.1.2 + ((t.height / 2 : Nat) : Int)))
      greedyKeep [] (sortYX centers)
  | _, _ => []

/-- is_near_any (auto_tower.py lines 263-268 and 338-342): whether some
point of the list is within Manhattan distance dist (inclusive) of
(x, y). -/
def is_near_any (x y : Int) (points : List (Int × Int)) (dist : Int) : Bool :=
  points.any (fun p => decide (|x - p.1| + |y - p.2| ≤ dist))

/-- The sold-out proximity filter applied to note and hundred candidates
(auto_tower.py lines 284 and 359): drop each candidate that is near some
sold_out marker, at distance 150. -/
def filter_sold_out (cands sold : List (Int × Int)) : List (Int × Int) :=
  cands.filter (fun p => !is_near_any p.1 p.2 sold 150)

/-- The TEMPLATES table (auto_tower.py lines 17-39): symbolic token name
to image file name. -/
def TEMPLATES : List (String × String) :=
  [("quick_start", "quick_start_button.png"),
   ("next", "next.png"),
   ("start_battle", "start_battle.png"),
   ("choice", "choice.png"),
   ("tag", "tag.png"),
   ("note", "note.png"),
   ("hundred", "100.png"),
   ("buy", "buy.png"),
   ("refresh", "refresh.png"),
   ("back", "back.png"),
   ("leave", "leave.png"),
   ("save", "save.png"),
   ("enter_shop", "enter_shop.png"),
   ("not_enough_money", "not_enough_money.png"),
   ("enter", "enter_button.png"),
   ("confirm", "confirm.png"),
   ("select", "select.png"),
   ("select_confirm", "select_confirm.png"),
   ("shop", "shop.png"),
   ("strengthen", "strengthen.png"),
   ("sold_out", "sold_out.png")]

/-- load_template (auto_tower.py lines 77-87): look the name up in
TEMPLATES, then read the file from disk.  The disk function models the
chain isfile / imread / nonempty checks: none stands for a missing or
unreadable file. -/
def load_template (disk : String → Option Mat) (name : String) : Option Mat :=
  match TEMPLATES.find? (fun p => p.1 == name) with
  | none => none
  | some p => disk p.2

/-- One reading of the process-wide control flags PAUSED and RUNNING. -/
structure Ctrl where
  paused : Bool
  running : Bool
deriving DecidableEq

/-- The spin-wait of check_pause_and_running (line 71-72): while paused
and running, sleep and read the flags again; the list holds the
successive readings taken during the wait (an exhausted list models the
pause ending at the last reading). -/
def spin_wait : Ctrl → List Ctrl → Ctrl
  | c, [] => c
  | c, c2 :: rest => if c.paused && c.running then spin_wait c2 rest else c

/-- Failure channel of a routine: the cooperative cancellation raised by
check_pause_and_running (KeyboardInterrupt), or an application error
such as the ValueError of wait_and_click. -/
inductive RFail where
  | userStop : RFail
  | appError (msg : String) : RFail
deriving DecidableEq

/-- check_pause_and_running (auto_tower.py lines 67-74): raise if not
running, spin while paused, raise again if not running. -/
def check_pause_and_running (c : Ctrl) (reads : List Ctrl) : Except RFail Unit :=
  if !c.running then .error .userStop
  else
    let c2 := spin_wait c reads
    if !c2.running then .error .userStop else .ok ()

/-- Observable events emitted by the routines.  Sub-flows that are
modelled separately appear as single marker events where they are
invoked. -/
inductive Ev where
  | click (x y : Int) : Ev
  | burst : Ev
  | shopFlow (finalShop : Bool) : Ev
  | choiceFlow : Ev
  | idle : Ev
  | purchase : Ev
  | pauseToggled : Ev
deriving DecidableEq

/-- An event trace: each event is tagged with the index of the
suspension point (control check) that last passed before it was
issued. -/
abbrev Trc := List (Nat × Ev)

/-- Result of a routine: the trace it emitted, and either the
cancellation or error it raised, or its value together with the index of
the next unused suspension point. -/
abbrev Proc (α : Type) := Trc × Except RFail (α × Nat)

/-- Sequencing of routine results: on failure the trace so far is kept
and the continuation never runs (exception propagation). -/
def andThen {α β : Type} (r : Proc α) (f : α → Nat → Proc β) : Proc β :=
  match r with
  | (tr, .error e) => (tr, .error e)
  | (tr, .ok (a, i)) => ((tr ++ (f a i).1, (f a i).2) : Proc β)

/-- capture_emulator (auto_tower.py lines 98-110): check the control
flags (a suspension point), then grab the frame and window rectangle.
The window query and screenshot primitives are modelled by the stream
caps of capture outcomes, indexed by suspension point. -/
def captureT (ctrl : Nat → Ctrl) (spins : Nat → List Ctrl) (caps : Nat → Mat × Rect)
    (i : Nat) : Except RFail ((Mat × Rect) × Nat) :=
  match check_pause_and_running (ctrl i) (spins i) with
  | .error e => .error e
  | .ok _ => .ok (caps i, i + 1)

/-- click_blank (auto_tower.py lines 213-218): check the control flags,
then click near the left edge at half height. -/
def click_blank (ctrl : Nat → Ctrl) (spins : Nat → List Ctrl) (rect : Rect) (i : Nat) :
    Proc Unit :=
  match check_pause_and_running (ctrl i) (spins i) with
  | .error e => ([], .error e)
  | .ok _ => ([(i, Ev.click (rect.left + 10) (rect.top + rect.height / 2))], .ok ((), i + 1))

/-- A burst of n click_blank calls (the overlay-clearing loop at
auto_tower.py lines 318-320). -/
def click_blank_burst (ctrl : Nat → Ctrl) (spins : Nat → List Ctrl) (rect : Rect) :
    Nat → Nat → Proc Unit
  | 0, i => ([], .ok ((), i))
  | n + 1, i => andThen (click_blank ctrl spins rect i)
      (fun _ j => click_blank_burst ctrl spins rect n j)

/-- The confirmation poll inside select_choice_or_first (auto_tower.py
lines 185-196): up to 3 s (the fuel models the remaining poll budget),
check the flags, capture, load select_confirm and click it when it
matches at threshold 0.7; running out of time is a legitimate outcome,
not an error. -/
def poll_select_confirm (corrFn : Mat → Mat → List (List ℚ)) (disk : String → Option Mat)
    (ctrl : Nat → Ctrl) (spins : Nat → List Ctrl) (caps : Nat → Mat × Rect) :
    Nat → Nat → Proc Unit
  | 0, i => ([], .ok ((), i))
  | fuel + 1, i =>
    match check_pause_and_running (ctrl i) (spins i) with
    | .error e => ([], .error e)
    | .ok _ =>
      match captureT ctrl spins caps (i + 1) with
      | .error e => ([], .error e)
      | .ok ((img2, rect2), i2) =>
        let conf_icon := load_template disk "select_confirm"
        let conf_pos := if conf_icon.isSome then
          match_template corrFn (some img2) conf_icon THRESHOLD_07 else none
        match conf_pos with
        | some (cx, cy) =>
          ([(i + 1, Ev.click (rect2.left + cx) (rect2.top + cy))], .ok ((), i2))
        | none => poll_select_confirm corrFn disk ctrl spins caps fuel i2

/-- select_choice_or_first (auto_tower.py lines 172-210): prefer a
select icon (threshold 0.7, then poll for select_confirm), else a choice
icon (threshold 0.8), else a blind click at 20 percent of the width and
half the height of the window (the float multiplication of the source is
modelled exactly: int(width times 0.2) becomes width * 2 / 10). -/
def select_choice_or_first (corrFn : Mat → Mat → List (List ℚ)) (disk : String → Option Mat)
    (ctrl : Nat → Ctrl) (spins : Nat → List Ctrl) (caps : Nat → Mat × Rect)
    (fuel : Nat) (i : Nat) : Proc Unit :=
  let select_icon := load_template disk "select"
  let choice_icon := load_template disk "choice"
  match captureT ctrl spins caps i with
  | .error e => ([], .error e)
  | .ok ((img, rect), i1) =>
    match check_pause_and_running (ctrl i1) (spins i1) with
    | .error e => ([], .error e)
    | .ok _ =>
      let select_pos := if select_icon.isSome then
        match_template corrFn (some img) select_icon THRESHOLD_07 else none
      match select_pos with
      | some (sx, sy) =>
        andThen (([(i1, Ev.click (rect.left + sx) (rect.top + sy))], .ok ((), i1 + 1)))
          (fun _ j => poll_select_confirm corrFn disk ctrl spins caps fuel j)
      | none =>
        let choice_pos := if choice_icon.isSome then
          match_template corrFn (some img) choice_icon THRESHOLD_08 else none
        match choice_pos with
        | some (cx, cy) =>
          ([(i1, Ev.click (rect.left + cx) (rect.top + cy))], .ok ((), i1 + 1))
        | none =>
          ([(i1, Ev.click (rect.left + rect.width * 2 / 10) (rect.top + rect.height / 2))],
            .ok ((), i1 + 1))

/-- The shop-visit cap max_shops = 4 of main_loop (auto_tower.py line
515). -/
def max_shops : Nat := 4

/-- One decision step of the Climbing loop after the fast-click burst
(auto_tower.py lines 519-554): capture one frame, then in strict order
try the save token (threshold 0.8, with an optional confirm click and
run termination), the enter_shop token (threshold 0.8, guarded by the
shop counter), the select (0.7) or choice (0.8) tokens, else idle.
Returns the new shop counter and whether the run terminated. -/
def climb_step (corrFn : Mat → Mat → List (List ℚ)) (disk : String → Option Mat)
    (ctrl : Nat → Ctrl) (spins : Nat → List Ctrl) (caps : Nat → Mat × Rect)
    (i shop_counter : Nat) : Proc (Nat × Bool) :=
  match captureT ctrl spins caps i with
  | .error e => ([], .error e)
  | .ok ((img, rect), i1) =>
    let save_template := load_template disk "save"
    match match_template corrFn (some img) save_template THRESHOLD_08 with
    | some (sx, sy) =>
      let clickSave : Trc := [(i, Ev.click (rect.left + sx) (rect.top + sy))]
      let confirm_template := load_template disk "confirm"
      if confirm_template.isSome then
        match captureT ctrl spins caps i1 with
        | .error e => (clickSave, .error e)
        | .ok ((img2, rect2), i2) =>
          match match_template corrFn (some img2) confirm_template THRESHOLD_08 with
          | some (cx, cy) =>
            (clickSave ++ [(i1, Ev.click (rect2.left + cx) (rect2.top + cy))],
              .ok ((shop_counter, true), i2))
          | none => (clickSave, .ok ((shop_counter, true), i2))
      else (clickSave, .ok ((shop_counter, true), i1))
    | none =>
      let enter_shop_template := load_template disk "enter_shop"
      let shop_pos := match_template corrFn (some img) enter_shop_template THRESHOLD_08
      if shop_pos.isSome && decide (shop_counter < max_shops) then
        ([(i, Ev.shopFlow (shop_counter == max_shops - 1))], .ok ((shop_counter + 1, false), i1))
      else
        let select_template := load_template disk "select"
        let choice_template := load_template disk "choice"
        let select_pos := if select_template.isSome then
          match_template corrFn (some img) select_template THRESHOLD_07 else none
        let choice_pos := if choice_template.isSome then
          match_template corrFn (some img) choice_template THRESHOLD_08 else none
        if select_pos.isSome || choice_pos.isSome then
          ([(i, Ev.choiceFlow)], .ok ((shop_counter, false), i1))
        else
          ([(i, Ev.idle)], .ok ((shop_counter, false), i1))

/-- The Climbing loop of main_loop (auto_tower.py lines 516-554): each
iteration checks the control flags, runs the fast-click burst (whose
capture is a further suspension point; its time-based spam clicks are
abstracted to one burst event), then takes one decision step.  The shop
and choice sub-flows appear as marker events; their internal suspension
points are modelled by their own functions.  The fuel bounds the
modelled horizon of the unbounded while loop. -/
def climb_loop (corrFn : Mat → Mat → List (List ℚ)) (disk : String → Option Mat)
    (ctrl : Nat → Ctrl) (spins : Nat → List Ctrl) (caps : Nat → Mat × Rect) :
    Nat → Nat → Nat → Proc Unit
  | 0, i, _ => ([], .ok ((), i))
  | fuel + 1, i, shop_counter =>
    match check_pause_and_running (ctrl i) (spins i) with
    | .error e => ([], .error e)
    | .ok _ =>
      match captureT ctrl spins caps (i + 1) with
      | .error e => ([], .error e)
      | .ok (_, i2) =>
        andThen (([(i + 1, Ev.burst)], .ok ((), i2))) (fun _ j =>
          andThen (climb_step corrFn disk ctrl spins caps j shop_counter) (fun r j2 =>
            if r.2 then ([], .ok ((), j2))
            else climb_loop corrFn disk ctrl spins caps fuel j2 r.1))

/-- The inner for-loop over the filtered note candidates (auto_tower.py
lines 291-326): for each candidate check the flags, capture and click
the candidate, capture and look for the buy button (absent buy means a
dead click: continue with the next candidate), click buy, optionally
confirm, clear the overlay with 20 blank clicks, set any_bought and
break. -/
def note_for (corrFn : Mat → Mat → List (List ℚ)) (buy_t confirm_t : Option Mat)
    (ctrl : Nat → Ctrl) (spins : Nat → List Ctrl) (caps : Nat → Mat × Rect) :
    List (Int × Int) → Nat → Proc Bool
  | [], i => ([], .ok (false, i))
  | (cx, cy) :: rest, i =>
    match check_pause_and_running (ctrl i) (spins i) with
    | .error e => ([], .error e)
    | .ok _ =>
      match captureT ctrl spins caps (i + 1) with
      | .error e => ([], .error e)
      | .ok ((_, rect1), i2) =>
        andThen (([(i + 1, Ev.click (rect1.left + cx) (rect1.top + cy))], .ok ((), i2)))
          (fun _ j =>
            match captureT ctrl spins caps j with
            | .error e => ([], .error e)
            | .ok ((img2, rect2), j1) =>
              match match_template corrFn (some img2) buy_t THRESHOLD_08 with
              | none => note_for corrFn buy_t confirm_t ctrl spins caps rest j1
              | some (bx, byv) =>
                andThen (([(j, Ev.click (rect2.left + bx) (rect2.top + byv))], .ok ((), j1)))
                  (fun _ j2 =>
                    match captureT ctrl spins caps j2 with
                    | .error e => ([], .error e)
                    | .ok ((img3, rect3), j3) =>
                      let conf_pos := if confirm_t.isSome then
                        match_template corrFn (some img3) confirm_t THRESHOLD_08 else none
                      let confEvs : Trc := match conf_pos with
                        | some (kx, ky) => [(j2, Ev.click (rect3.left + kx) (rect3.top + ky))]
                        | none => []
                      andThen ((confEvs, .ok ((), j3))) (fun _ j4 =>
                        andThen (click_blank_burst ctrl spins rect3 20 j4)
                          (fun _ j5 => ([], .ok (true, j5))))))

/-- The note purchase loop (auto_tower.py lines 270-333): each iteration
checks the flags, captures, collects all note matches at 0.8, stops when
none are left, filters out candidates near a sold_out marker (all
sold_out matches at 0.8), stops when none survive, runs the for-loop
over the survivors, and stops when that pass bought nothing (stuck-state
guard).  The fuel bounds the modelled horizon of the while loop. -/
def note_loop (corrFn : Mat → Mat → List (List ℚ)) (note_t sold_t buy_t confirm_t : Option Mat)
    (ctrl : Nat → Ctrl) (spins : Nat → List Ctrl) (caps : Nat → Mat × Rect) :
    Nat → Nat → Proc Unit
  | 0, i => ([], .ok ((), i))
  | fuel + 1, i =>
    match check_pause_and_running (ctrl i) (spins i) with
    | .error e => ([], .error e)
    | .ok _ =>
      match captureT ctrl spins caps (i + 1) with
      | .error e => ([], .error e)
      | .ok ((img, _), i2) =>
        let note_positions := if note_t.isSome then
          find_all_matches corrFn (some img) note_t THRESHOLD_08 else []
        if note_positions.isEmpty then ([], .ok ((), i2))
        else
          let sold_positions := if sold_t.isSome then
            find_all_matches corrFn (some img) sold_t THRESHOLD_08 else []
          let filtered_notes := filter_sold_out note_positions sold_positions
          if filtered_notes.isEmpty then ([], .ok ((), i2))
          else
            andThen (note_for corrFn buy_t confirm_t ctrl spins caps filtered_notes i2)
              (fun any_bought i3 =>
                if any_bought then
                  note_loop corrFn note_t sold_t buy_t confirm_t ctrl spins caps fuel i3
                else ([], .ok ((), i3)))

/-- The refresh loop of handle_shop (auto_tower.py lines 449-462),
recursing structurally on remaining = 2 - refreshes: while refreshes
are below 2, check the flags, capture, look for the refresh token at
0.8; when present click it, re-run the purchase loops (marker event) and
count the refresh; when absent stop early. -/
def refresh_go (corrFn : Mat → Mat → List (List ℚ)) (refresh_t : Option Mat)
    (ctrl : Nat → Ctrl) (spins : Nat → List Ctrl) (caps : Nat → Mat × Rect) :
    Nat → Nat → Nat → Proc Nat
  | 0, refreshes, i => ([], .ok (refreshes, i))
  | remaining + 1, refreshes, i =>
    match check_pause_and_running (ctrl i) (spins i) with
    | .error e => ([], .error e)
    | .ok _ =>
      match captureT ctrl spins caps (i + 1) with
      | .error e => ([], .error e)
      | .ok ((img, rect), i2) =>
        match match_template corrFn (some img) refresh_t THRESHOLD_08 with
        | some (x, y) =>
          andThen (([(i + 1, Ev.click (rect.left + x) (rect.top + y)), (i + 1, Ev.purchase)],
              .ok ((), i2)))
            (fun _ j => refresh_go corrFn refresh_t ctrl spins caps remaining (refreshes + 1) j)
        | none => ([], .ok (refreshes, i2))

/-- The refresh loop entered with zero refreshes done (auto_tower.py
lines 449-450). -/
def refresh_loop (corrFn : Mat → Mat → List (List ℚ)) (refresh_t : Option Mat)
    (ctrl : Nat → Ctrl) (spins : Nat → List Ctrl) (caps : Nat → Mat × Rect) (i : Nat) :
    Proc Nat :=
  refresh_go corrFn refresh_t ctrl spins caps 2 0 i

/-- click_bubble (auto_tower.py lines 245-250): capture, then
click_relative (which itself checks the flags) at x offset 500 and the
indexed fractional height (0.40, 0.60, 0.75; floats modelled exactly by
integer division). -/
def click_bubble (ctrl : Nat → Ctrl) (spins : Nat → List Ctrl) (caps : Nat → Mat × Rect)
    (index : Nat) (i : Nat) : Proc Unit :=
  match captureT ctrl spins caps i with
  | .error e => ([], .error e)
  | .ok ((_, rect), i1) =>
    match check_pause_and_running (ctrl i1) (spins i1) with
    | .error e => ([], .error e)
    | .ok _ =>
      let h := rect.height
      let bubble_y_positions := [h * 40 / 100, h * 60 / 100, h * 75 / 100]
      ([(i1, Ev.click (rect.left + 500) (rect.top + bubble_y_positions.getD index 0))],
        .ok ((), i1 + 1))

/-- The tail of handle_shop after the first purchase pass (auto_tower.py
lines 448-488): on the final shop run up to 2 refresh cycles, and only
when both succeeded look for the back token, clearing a blank overlay
before clicking it, silently skipping the exit when back is absent; on a
non-final shop look for the back token directly, click it when found,
and toggle the pause when it is absent.  Returns the refresh count. -/
def handle_shop_exit (corrFn : Mat → Mat → List (List ℚ)) (ctrl : Nat → Ctrl)
    (spins : Nat → List Ctrl) (caps : Nat → Mat × Rect) (final_shop : Bool)
    (refresh_t back_t : Option Mat) (i : Nat) : Proc Nat :=
  if final_shop then
    andThen (refresh_loop corrFn refresh_t ctrl spins caps i) (fun r j =>
      if r == 2 then
        match captureT ctrl spins caps j with
        | .error e => ([], .error e)
        | .ok ((img, rect), j1) =>
          match match_template corrFn (some img) back_t THRESHOLD_08 with
          | some (x, y) =>
            andThen (click_blank ctrl spins rect j1) (fun _ j2 =>
              ([(j1, Ev.click (rect.left + x) (rect.top + y))], .ok (r, j2)))
          | none => ([], .ok (r, j1))
      else ([], .ok (r, j)))
  else
    match captureT ctrl spins caps i with
    | .error e => ([], .error e)
    | .ok ((img, rect), i1) =>
      match match_template corrFn (some img) back_t THRESHOLD_08 with
      | some (x, y) => ([(i, Ev.click (rect.left + x) (rect.top + y))], .ok (0, i1))
      | none => ([(i, Ev.pauseToggled)], .ok (0, i1))

/-- The closing phase of handle_shop (auto_tower.py lines 448-500): the
exit handling above, then click bubble index 2, and on the final shop
probe once for a trailing confirm token (when its template loads) and
click it when present. -/
def handle_shop_close (corrFn : Mat → Mat → List (List ℚ)) (disk : String → Option Mat)
    (ctrl : Nat → Ctrl) (spins : Nat → List Ctrl) (caps : Nat → Mat × Rect)
    (final_shop : Bool) (refresh_t back_t : Option Mat) (i : Nat) : Proc Nat :=
  andThen (handle_shop_exit corrFn ctrl spins caps final_shop refresh_t back_t i)
    (fun refreshes j =>
      andThen (click_bubble ctrl spins caps 2 j) (fun _ j2 =>
        if final_shop then
          let confirm_template := load_template disk "confirm"
          if confirm_template.isSome then
            match captureT ctrl spins caps j2 with
            | .error e => ([], .error e)
            | .ok ((img, rect), j3) =>
              match match_template corrFn (some img) confirm_template THRESHOLD_08 with
              | some (cx, cy) =>
                ([(j2, Ev.click (rect.left + cx) (rect.top + cy))], .ok (refreshes, j3))
              | none => ([], .ok (refreshes, j3))
          else ([], .ok (refreshes, j2))
        else ([], .ok (refreshes, j2))))

/-- Whether a token name is one of the three initial buttons
(auto_tower.py line 133). -/
def is_initial_btn (name : String) : Bool :=
  name == "quick_start" || name == "next" || name == "start_battle"

/-- Result of wait_and_click: clicked the token (returns True in the
source), skipped it because of the skip-initial flag, or timed out
(both return False in the source). -/
inductive WcRes where
  | clicked : WcRes
  | skippedInit : WcRes
  | timedOut : WcRes
deriving DecidableEq

/-- The polling loop of wait_and_click (auto_tower.py lines 134-149):
the fuel models the remaining timeout budget; each iteration checks the
flags, honors the skip-initial flag for the three initial buttons,
captures and matches, clicking on success. -/
def wait_and_click_loop (corrFn : Mat → Mat → List (List ℚ)) (t : Mat)
    (is_initial skip : Bool) (ctrl : Nat → Ctrl) (spins : Nat → List Ctrl)
    (caps : Nat → Mat × Rect) (threshold : ℚ) : Nat → Nat → Proc WcRes
  | 0, i => ([], .ok (.timedOut, i))
  | fuel + 1, i =>
    match check_pause_and_running (ctrl i) (spins i) with
    | .error e => ([], .error e)
    | .ok _ =>
      if is_initial && skip then ([], .ok (.skippedInit, i + 1))
      else
        match captureT ctrl spins caps (i + 1) with
        | .error e => ([], .error e)
        | .ok ((img, rect), i2) =>
          match match_template corrFn (some img) (some t) threshold with
          | some (x, y) =>
            ([(i + 1, Ev.click (rect.left + x) (rect.top + y))], .ok (.clicked, i2))
          | none => wait_and_click_loop corrFn t is_initial skip ctrl spins caps threshold fuel i2

/-- wait_and_click (auto_tower.py lines 128-149): load the named
template, raising ValueError when it cannot be loaded, for every token
name; then poll until the timeout. -/
def wait_and_click (corrFn : Mat → Mat → List (List ℚ)) (disk : String → Option Mat)
    (ctrl : Nat → Ctrl) (spins : Nat → List Ctrl) (caps : Nat → Mat × Rect)
    (skip : Bool) (name : String) (threshold : ℚ) (fuel i : Nat) : Proc WcRes :=
  match load_template disk name with
  | none => ([], .error (.appError ("Template " ++ name ++ " not found in resources.")))
  | some t =>
    wait_and_click_loop corrFn t (is_initial_btn name) skip ctrl spins caps threshold fuel i

/-- The cap MAX_RUNS = 7 of the process driver (auto_tower.py line
564). -/
def MAX_RUNS : Nat := 7

/-- Outcome of one main_loop attempt as seen by the driver: a normal
return, the KeyboardInterrupt of a user stop, or any other exception. -/
inductive RunOutcome where
  | finished : RunOutcome
  | userStop : RunOutcome
  | crashed : RunOutcome
deriving DecidableEq

/-- The process driver loop (auto_tower.py lines 567-581), recursing
structurally on remaining = MAX_RUNS - run_count: while RUNNING (read
between runs through runningAt) and below MAX_RUNS attempts, run
main_loop; a KeyboardInterrupt breaks the loop, any other exception is
logged and the loop retries.  Returns the number of runs attempted. -/
def driver_go (outcome : Nat → RunOutcome) (runningAt : Nat → Bool) :
    Nat → Nat → Nat
  | 0, run_count => run_count
  | remaining + 1, run_count =>
    if runningAt run_count then
      match outcome run_count with
      | .userStop => run_count + 1
      | _ => driver_go outcome runningAt remaining (run_count + 1)
    else run_count

/-- The process driver starting from zero completed runs. -/
def driver_loop (outcome : Nat → RunOutcome) (runningAt : Nat → Bool) : Nat :=
  driver_go outcome runningAt MAX_RUNS 0

/-- A rational score of one, constructor-built for kernel reduction. -/
def score1 : ℚ := ⟨1, 1, by norm_num, by norm_num⟩

/-- A rational score of zero, constructor-built for kernel reduction. -/
def score0 : ℚ := ⟨0, 1, by norm_num, by norm_num⟩



/-- A control stream that always reads running and unpaused. -/
def allRun : Nat → Ctrl := fun _ => ⟨false, true⟩

/-- An empty spin-read stream. -/
def noSpins : Nat → List Ctrl := fun _ => []

/-- A constant capture stream: a one-pixel frame in a 100 by 100 window
at the origin. -/
def flatCaps : Nat → Mat × Rect := fun _ => (⟨1, 1, []⟩, ⟨0, 0, 100, 100⟩)

/-- A disk with no template assets at all. -/
def emptyDisk : String → Option Mat := fun _ => none

/-- A disk carrying only the enter_shop asset (as a width-one mat). -/
def shopDisk : String → Option Mat :=
  fun fn => if fn == "enter_shop.png" then some ⟨1, 1, []⟩ else none

/-- A correlation oracle keyed on the template width: width-one
templates match perfectly, all others score zero. -/
def widthCorr : Mat → Mat → List (List ℚ) :=
  fun _ t => if t.width == 1 then [[score1]] else [[score0]]

/-- A disk carrying a perfectly matching tag asset together with select
and choice assets that score zero under widthCorr. -/
def tagDisk : String → Option Mat := fun fn =>
  if fn == "tag.png" then some ⟨1, 1, []⟩
  else if fn == "select.png" then some ⟨1, 3, []⟩
  else if fn == "choice.png" then some ⟨1, 4, []⟩
  else none

/-- A disk carrying only a perfectly matching choice asset. -/
def choiceDisk : String → Option Mat :=
  fun fn => if fn == "choice.png" then some ⟨1, 1, []⟩ else none

/-- A disk carrying only a perfectly matching select asset. -/
def selDisk : String → Option Mat :=
  fun fn => if fn == "select.png" then some ⟨1, 1, []⟩ else none

/-- A control stream on which the stop hotkey fires before reading 5:
running reads true below 5 and false from 5 on. -/
def stopCtrl : Nat → Ctrl := fun j => ⟨false, decide (j < 5)⟩

/-- pickMax returns an element of its input list. -/
lemma pickMax_mem : ∀ (l : List ((Int × Int) × ℚ)) (e : (Int × Int) × ℚ),
    pickMax l = some e → e ∈ l := by
  intro l
  induction l with
  | nil => intro e h; simp [pickMax] at h
  | cons a rest ih =>
    intro e h
    cases hrest : pickMax rest with
    | none =>
      simp only [pickMax, hrest] at h
      cases h; exact List.mem_cons_self a rest
    | some b =>
      simp only [pickMax, hrest] at h
      by_cases hlt : a.2 < b.2
      · rw [if_pos hlt] at h; cases h; exact List.mem_cons_of_mem a (ih e hrest)
      · rw [if_neg hlt] at h; cases h; exact List.mem_cons_self a rest

/-- pickMax returns a maximal score. -/
lemma pickMax_le : ∀ (l : List ((Int × Int) × ℚ)) (e : (Int × Int) × ℚ),
    pickMax l = some e → ∀ x ∈ l, x.2 ≤ e.2 := by
  intro l
  induction l with
  | nil => intro e h; simp [pickMax] at h
  | cons a rest ih =>
    intro e h x hx
    cases hrest : pickMax rest with
    | none =>
      simp only [pickMax, hrest] at h
      cases h
      rcases List.mem_cons.mp hx with h1 | h1
      · subst h1; exact le_refl _
      · cases rest with
        | nil => simp at h1
        | cons r rs => simp [pickMax] at hrest; cases hrest' : pickMax rs <;>
            simp [hrest'] at hrest
    | some b =>
      simp only [pickMax, hrest] at h
      by_cases hlt : a.2 < b.2
      · rw [if_pos hlt] at h; cases h
        rcases List.mem_cons.mp hx with h1 | h1
        · subst h1; exact le_of_lt hlt
        · exact ih e hrest x h1
      · rw [if_neg hlt] at h; cases h
        rcases List.mem_cons.mp hx with h1 | h1
        · subst h1; exact le_refl _
        · exact le_trans (ih b hrest x h1) (not_lt.mp hlt)

/-- Manhattan distance is symmetric. -/
lemma manhattan_comm (a b : Int × Int) : manhattan a b = manhattan b a := by
  simp [manhattan, abs_sub_comm]

/-- The greedy filter preserves and establishes pairwise separation. -/
lemma greedyKeep_pairwise : ∀ (l acc : List (Int × Int)),
    acc.Pairwise (fun a b => 20 ≤ manhattan a b) →
    (greedyKeep acc l).Pairwise (fun a b => 20 ≤ manhattan a b) := by
  intro l
  induction l with
  | nil => intro acc h; exact h
  | cons c rest ih =>
    intro acc h
    rw [greedyKeep]
    by_cases hall : acc.all (fun f => !decide (manhattan c f < 20)) = true
    · rw [if_pos hall]
      apply ih
      rw [List.pairwise_append]
      refine ⟨h, List.pairwise_singleton _ _, ?_⟩
      intro a ha b hb
      simp only [List.mem_singleton] at hb
      subst hb
      have := List.all_eq_true.mp hall a ha
      simp only [Bool.not_eq_true', decide_eq_false_iff_not, not_lt] at this
      rw [manhattan_comm]; exact this
    · rw [if_neg hall]; exact ih acc h

/-- The greedy filter output is a sublist of the kept prefix and the
input. -/
lemma greedyKeep_sublist : ∀ (l acc : List (Int × Int)),
    (greedyKeep acc l).Sublist (acc ++ l) := by
  intro l
  induction l with
  | nil => intro acc; simp [greedyKeep]
  | cons c rest ih =>
    intro acc
    rw [greedyKeep]
    by_cases hall : acc.all (fun f => !decide (manhattan c f < 20)) = true
    · rw [if_pos hall]
      have h1 := ih (acc ++ [c])
      have : acc ++ [c] ++ rest = acc ++ c :: rest := by simp
      rwa [this] at h1
    · rw [if_neg hall]
      exact (ih acc).trans (List.Sublist.append_left (List.sublist_cons_self c rest) acc)

/-- Membership in insertYX. -/
lemma mem_insertYX (a b : Int × Int) : ∀ (l : List (Int × Int)),
    b ∈ insertYX a l ↔ b = a ∨ b ∈ l := by
  intro l
  induction l with
  | nil => simp [insertYX]
  | cons x rest ih =>
    rw [insertYX]
    by_cases h : yxLe a x
    · rw [if_pos h]; simp [List.mem_cons]
    · rw [if_neg h]; simp only [List.mem_cons, ih]; tauto

/-- Sorting preserves membership. -/
lemma mem_sortYX (b : Int × Int) : ∀ (l : List (Int × Int)), b ∈ sortYX l ↔ b ∈ l := by
  intro l
  induction l with
  | nil => simp [sortYX]
  | cons x rest ih => rw [sortYX, mem_insertYX]; simp [List.mem_cons, ih]

/-- C10: both matcher operations are total at the public interface on
absent inputs: whenever the frame or the template is None,
match_template returns None and find_all_matches returns the empty list
(and, being total Lean functions, neither raises). -/
theorem C10_matcher_total_on_none :
    ∀ (corrFn : Mat → Mat → List (List ℚ)) (s t : Option Mat) (threshold : ℚ),
      match_template corrFn none t threshold = none ∧
      match_template corrFn s none threshold = none ∧
      find_all_matches corrFn none t threshold = [] ∧
      find_all_matches corrFn s none threshold = [] := by
  intro corrFn s t threshold
  refine ⟨?_, ?_, ?_, ?_⟩ <;> cases s <;> cases t <;> rfl

/-- C2: for every frame, template and threshold, match_template reports
a match exactly when the maximum correlation score c reaches the
threshold (inclusive boundary: at c equal to the threshold it returns a
point), and the point reported is the center of the best-scoring
location; the best score dominates every entry of the correlation
result. -/
theorem C2_match_template_boundary (corrFn : Mat → Mat → List (List ℚ)) (s t : Mat)
    (threshold : ℚ) (loc : Int × Int) (c : ℚ)
    (hbest : pickMax (gridEntries (corrFn s t)) = some (loc, c)) :
    ((loc, c) ∈ gridEntries (corrFn s t)) ∧
    (∀ e ∈ gridEntries (corrFn s t), e.2 ≤ c) ∧
    ((match_template corrFn (some s) (some t) threshold).isSome ↔ threshold ≤ c) ∧
    (threshold ≤ c →
      match_template corrFn (some s) (some t) threshold =
        some (loc.1 + ((t.width / 2 : Nat) : Int), loc.2 + ((t.height / 2 : Nat) : Int))) ∧
    (c < threshold → match_template corrFn (some s) (some t) threshold = none) ∧
    (threshold = c →
      match_template corrFn (some s) (some t) threshold =
        some (loc.1 + ((t.width / 2 : Nat) : Int), loc.2 + ((t.height / 2 : Nat) : Int))) := by
  have heq : match_template corrFn (some s) (some t) threshold =
      if c < threshold then none
      else some (loc.1 + ((t.width / 2 : Nat) : Int), loc.2 + ((t.height / 2 : Nat) : Int)) := by
    simp [match_template, hbest]
  refine ⟨pickMax_mem _ _ hbest, pickMax_le _ _ hbest, ?_, ?_, ?_, ?_⟩
  · rw [heq]
    by_cases h : c < threshold
    · simp [h, not_le.mpr h]
    · simp [h, not_lt.mp h]
  · intro h; rw [heq, if_neg (not_lt.mpr h)]
  · intro h; rw [heq, if_pos h]
  · intro h; rw [heq, if_neg (not_lt.mpr (le_of_eq h))]

/-- Witness for C2 at a concrete correlation result whose best score
equals the threshold exactly: a point is returned. -/
theorem C2_match_template_boundary_witness :
    match_template (fun _ _ => [[THRESHOLD_08, score0]]) (some ⟨1, 2, []⟩) (some ⟨2, 2, []⟩)
      THRESHOLD_08 = some (1, 1) :=
  (C2_match_template_boundary (fun _ _ => [[THRESHOLD_08, score0]]) ⟨1, 2, []⟩ ⟨2, 2, []⟩
    THRESHOLD_08 (0, 0) THRESHOLD_08 (by decide)).2.2.2.2.2 (by decide)

/-- C3 (amended): find_all_matches collects only locations scoring at
least the threshold, returns their centers, and the greedy
de-duplication keeps a candidate exactly when its Manhattan distance to
every already-kept point is at least the minimum separation of 20 px;
consequently every two returned points are at Manhattan distance at
least 20 (never closer than the separation). -/
theorem C3_find_all_matches_separation (corrFn : Mat → Mat → List (List ℚ))
    (img template : Option Mat) (threshold : ℚ) :
    (find_all_matches corrFn img template threshold).Pairwise
      (fun a b => 20 ≤ manhattan a b) ∧
    (∀ p ∈ find_all_matches corrFn img template threshold, ∀ i t, img = some i →
      template = some t →
      ∃ loc score, ((loc, score) ∈ gridEntries (corrFn i t) ∧ threshold ≤ score ∧
        p = (loc.1 + ((t.width / 2 : Nat) : Int), loc.2 + ((t.height / 2 : Nat) : Int)))) := by
  constructor
  · rcases img with _ | i
    · rcases template with _ | t <;> exact List.Pairwise.nil
    · rcases template with _ | t
      · exact List.Pairwise.nil
      · have hview : find_all_matches corrFn (some i) (some t) threshold =
            (if ((gridEntries (corrFn i t)).filter (fun e => threshold ≤ e.2)).isEmpty then []
             else greedyKeep []
               (sortYX (((gridEntries (corrFn i t)).filter (fun e => threshold ≤ e.2)).map
                 (fun e => (e.1.1 + ((t.width / 2 : Nat) : Int),
                   e.1.2 + ((t.height / 2 : Nat) : Int)))))) := rfl
        rw [hview]
        split
        · exact List.Pairwise.nil
        · exact greedyKeep_pairwise _ [] List.Pairwise.nil
  · intro p hp i t hi ht
    subst hi; subst ht
    have hview : find_all_matches corrFn (some i) (some t) threshold =
        (if ((gridEntries (corrFn i t)).filter (fun e => threshold ≤ e.2)).isEmpty then []
         else greedyKeep []
           (sortYX (((gridEntries (corrFn i t)).filter (fun e => threshold ≤ e.2)).map
             (fun e => (e.1.1 + ((t.width / 2 : Nat) : Int),
               e.1.2 + ((t.height / 2 : Nat) : Int)))))) := rfl
    rw [hview] at hp
    split at hp
    · simp at hp
    · have hsub := greedyKeep_sublist
        (sortYX (((gridEntries (corrFn i t)).filter (fun e => threshold ≤ e.2)).map
          (fun e => (e.1.1 + ((t.width / 2 : Nat) : Int),
            e.1.2 + ((t.height / 2 : Nat) : Int))))) []
      rw [List.nil_append] at hsub
      have hmemsort := hsub.subset hp
      rw [mem_sortYX] at hmemsort
      rcases List.mem_map.mp hmemsort with ⟨e, he, hpe⟩
      rcases List.mem_filter.mp he with ⟨hemem, hthr⟩
      refine ⟨e.1, e.2, ?_, ?_, ?_⟩
      · simpa using hemem
      · exact of_decide_eq_true hthr
      · exact hpe.symm

/-- Counterexample to C3 as stated: with a correlation result carrying
two hits whose centers are at Manhattan distance exactly 20, both points
are kept, although 20 does not exceed the minimum separation of 20 px
(the source rejects only distances strictly below 20). -/
theorem C3_counterexample_boundary :
    find_all_matches (fun _ _ => [score1 :: (List.replicate 19 score0 ++ [score1])])
        (some ⟨1, 21, []⟩) (some ⟨2, 2, []⟩) THRESHOLD_08 = [(1, 1), (21, 1)] ∧
    manhattan (1, 1) (21, 1) = 20 := by
  constructor
  · decide
  · decide

/-- Witness for C3 at the same concrete input: the returned points are
pairwise separated by at least 20 and the first returned point is the
center of a location scoring at least the threshold. -/
theorem C3_find_all_matches_separation_witness :
    (find_all_matches (fun _ _ => [score1 :: (List.replicate 19 score0 ++ [score1])])
        (some ⟨1, 21, []⟩) (some ⟨2, 2, []⟩) THRESHOLD_08).Pairwise
      (fun a b => 20 ≤ manhattan a b) ∧
    (∃ loc score,
      ((loc, score) ∈ gridEntries [score1 :: (List.replicate 19 score0 ++ [score1])] ∧
        THRESHOLD_08 ≤ score ∧
        ((1 : Int), (1 : Int)) = (loc.1 + ((2 / 2 : Nat) : Int), loc.2 + ((2 / 2 : Nat) : Int)))) := by
  refine ⟨(C3_find_all_matches_separation _ _ _ _).1, ?_⟩
  exact (C3_find_all_matches_separation (fun _ _ => [score1 :: (List.replicate 19 score0 ++ [score1])])
    (some ⟨1, 21, []⟩) (some ⟨2, 2, []⟩) THRESHOLD_08).2 (1, 1) (by decide) _ _ rfl rfl

/-- C4: the sold-out proximity filter of the purchase loops removes a
candidate exactly when some detected sold_out marker lies within 150 px
Manhattan distance (inclusive) of it, and always retains a candidate
with no marker within that distance. -/
theorem C4_sold_out_proximity (cands sold : List (Int × Int)) (p : Int × Int)
    (hp : p ∈ cands) :
    (p ∉ filter_sold_out cands sold ↔ ∃ q ∈ sold, |p.1 - q.1| + |p.2 - q.2| ≤ 150) ∧
    ((∀ q ∈ sold, ¬ (|p.1 - q.1| + |p.2 - q.2| ≤ 150)) → p ∈ filter_sold_out cands sold) := by
  have hmem : p ∈ filter_sold_out cands sold ↔
      ¬ ∃ q ∈ sold, |p.1 - q.1| + |p.2 - q.2| ≤ 150 := by
    rw [filter_sold_out, List.mem_filter]
    simp [hp, is_near_any, List.any_eq_true]
  constructor
  · rw [hmem]; exact not_not
  · intro h
    rw [hmem]
    rintro ⟨q, hq, hdist⟩
    exact h q hq hdist

/-- Witness for C4: a candidate with a marker at distance exactly 150 is
removed (boundary inclusive); a candidate whose nearest marker is at
distance 151 is retained. -/
theorem C4_sold_out_proximity_witness :
    (0, 0) ∉ filter_sold_out [(0, 0)] [(100, 50)] ∧
    (0, 0) ∈ filter_sold_out [(0, 0)] [(100, 51)] :=
  ⟨(C4_sold_out_proximity [(0, 0)] [(100, 50)] (0, 0) (by decide)).1.mpr
      ⟨(100, 50), by decide, by decide⟩,
   (C4_sold_out_proximity [(0, 0)] [(100, 51)] (0, 0) (by decide)).2 (by decide)⟩

/-- A capture succeeds exactly when its control check passes. -/
lemma captureT_ok (ctrl : Nat → Ctrl) (spins : Nat → List Ctrl) (caps : Nat → Mat × Rect)
    (i : Nat) (h : check_pause_and_running (ctrl i) (spins i) = .ok ()) :
    captureT ctrl spins caps i = .ok (caps i, i + 1) := by
  rw [captureT, h]

/-- C1: in the Climbing loop, each decision step works on one captured
frame and checks the tokens in strict priority order: a save match
(threshold 0.8) clicks it, optionally clicks a following confirm, and
terminates the run; otherwise an enter_shop match with shop counter
strictly below 4 invokes the shop flow (final at counter 3) and
increments the counter; otherwise a select (0.7) or choice (0.8) match
invokes the choice routine; otherwise the step idles.  Each branch
excludes all later ones. -/
theorem C1_climbing_priority (corrFn : Mat → Mat → List (List ℚ)) (disk : String → Option Mat)
    (ctrl : Nat → Ctrl) (spins : Nat → List Ctrl) (caps : Nat → Mat × Rect)
    (i n : Nat)
    (hch : check_pause_and_running (ctrl i) (spins i) = .ok ()) :
    (∀ sx sy, match_template corrFn (some (caps i).1) (load_template disk "save")
        THRESHOLD_08 = some (sx, sy) →
      (load_template disk "confirm" = none →
        climb_step corrFn disk ctrl spins caps i n =
          ([(i, Ev.click ((caps i).2.left + sx) ((caps i).2.top + sy))],
            .ok ((n, true), i + 1))) ∧
      (∀ ct, load_template disk "confirm" = some ct →
        check_pause_and_running (ctrl (i + 1)) (spins (i + 1)) = .ok () →
        (∀ cx cy, match_template corrFn (some (caps (i + 1)).1) (some ct)
            THRESHOLD_08 = some (cx, cy) →
          climb_step corrFn disk ctrl spins caps i n =
            ([(i, Ev.click ((caps i).2.left + sx) ((caps i).2.top + sy)),
              (i + 1, Ev.click ((caps (i + 1)).2.left + cx) ((caps (i + 1)).2.top + cy))],
              .ok ((n, true), i + 2))) ∧
        (match_template corrFn (some (caps (i + 1)).1) (some ct) THRESHOLD_08 = none →
          climb_step corrFn disk ctrl spins caps i n =
            ([(i, Ev.click ((caps i).2.left + sx) ((caps i).2.top + sy))],
              .ok ((n, true), i + 2))))) ∧
    (match_template corrFn (some (caps i).1) (load_template disk "save") THRESHOLD_08 = none →
      ((match_template corrFn (some (caps i).1) (load_template disk "enter_shop")
          THRESHOLD_08).isSome = true → n < max_shops →
        climb_step corrFn disk ctrl spins caps i n =
          ([(i, Ev.shopFlow (n == max_shops - 1))], .ok ((n + 1, false), i + 1))) ∧
      (((match_template corrFn (some (caps i).1) (load_template disk "enter_shop")
          THRESHOLD_08).isSome && decide (n < max_shops)) = false →
        (((if (load_template disk "select").isSome then
            match_template corrFn (some (caps i).1) (load_template disk "select") THRESHOLD_07
           else none).isSome ||
          (if (load_template disk "choice").isSome then
            match_template corrFn (some (caps i).1) (load_template disk "choice") THRESHOLD_08
           else none).isSome) = true →
          climb_step corrFn disk ctrl spins caps i n =
            ([(i, Ev.choiceFlow)], .ok ((n, false), i + 1))) ∧
        ((if (load_template disk "select").isSome then
            match_template corrFn (some (caps i).1) (load_template disk "select") THRESHOLD_07
          else none) = none →
         (if (load_template disk "choice").isSome then
            match_template corrFn (some (caps i).1) (load_template disk "choice") THRESHOLD_08
          else none) = none →
          climb_step corrFn disk ctrl spins caps i n =
            ([(i, Ev.idle)], .ok ((n, false), i + 1))))) := by
  have hcap := captureT_ok ctrl spins caps i hch
  refine ⟨?_, ?_⟩
  · intro sx sy hsave
    rcases hc : caps i with ⟨img, rect⟩
    rw [hc] at hsave
    refine ⟨?_, ?_⟩
    · intro hconf
      simp only [climb_step, hcap, hc, hsave, hconf, Option.isSome_none, Bool.false_eq_true,
        if_false]
    · intro ct hconf hch2
      have hcap2 := captureT_ok ctrl spins caps (i + 1) hch2
      rcases hc2 : caps (i + 1) with ⟨img2, rect2⟩
      rw [hc2] at hcap2
      refine ⟨?_, ?_⟩
      · intro cx cy hcm
        simp only [climb_step, hcap, hc, hsave, hconf, Option.isSome_some, if_true, hcap2, hcm]
        rfl
      · intro hcm
        simp only [climb_step, hcap, hc, hsave, hconf, Option.isSome_some, if_true, hcap2, hcm]
  · intro hsave
    rcases hc : caps i with ⟨img, rect⟩
    rw [hc] at hsave
    refine ⟨?_, ?_⟩
    · intro hshop hn
      simp only [climb_step, hcap, hc, hsave, hshop, decide_eq_true hn, Bool.and_self, if_true]
    · intro hgate
      refine ⟨?_, ?_⟩
      · intro hsel
        simp only [climb_step, hcap, hc, hsave, hgate, if_false, hsel, if_true,
          Bool.false_eq_true]
      · intro hsel hcho
        simp only [climb_step, hcap, hc, hsave, hgate, if_false, hsel, hcho,
          Option.isSome_none, Bool.or_self, Bool.false_eq_true]

/-- Witness for C1: with only the enter_shop token on screen and the
counter at zero the step invokes a non-final shop flow and increments
the counter; with no token at all it idles. -/
theorem C1_climbing_priority_witness :
    climb_step widthCorr shopDisk allRun noSpins flatCaps 0 0 =
      ([(0, Ev.shopFlow false)], .ok ((1, false), 1)) ∧
    climb_step widthCorr emptyDisk allRun noSpins flatCaps 0 0 =
      ([(0, Ev.idle)], .ok ((0, false), 1)) := by
  constructor
  · exact ((C1_climbing_priority widthCorr shopDisk allRun noSpins flatCaps 0 0 rfl).2
      rfl).1 rfl (by decide)
  · exact (((C1_climbing_priority widthCorr emptyDisk allRun noSpins flatCaps 0 0 rfl).2
      rfl).2 rfl).2 rfl rfl

/-- C8 (amended): the choice-resolution routine prefers a select icon
(threshold 0.7), clicking it and then polling for a select_confirm token
(threshold 0.7), clicking that when found and treating exhaustion of the
poll budget as a legitimate outcome, not an error; otherwise it clicks a
choice icon (threshold 0.8); otherwise it falls back to a blind click at
20 percent of the window width and 50 percent of the window height. -/
theorem C8_choice_resolution (corrFn : Mat → Mat → List (List ℚ)) (disk : String → Option Mat)
    (ctrl : Nat → Ctrl) (spins : Nat → List Ctrl) (caps : Nat → Mat × Rect)
    (fuel i : Nat)
    (hch : check_pause_and_running (ctrl i) (spins i) = .ok ())
    (hch2 : check_pause_and_running (ctrl (i + 1)) (spins (i + 1)) = .ok ()) :
    (∀ sx sy, (if (load_template disk "select").isSome then
        match_template corrFn (some (caps i).1) (load_template disk "select") THRESHOLD_07
       else none) = some (sx, sy) →
      select_choice_or_first corrFn disk ctrl spins caps fuel i =
        ((i + 1, Ev.click ((caps i).2.left + sx) ((caps i).2.top + sy)) ::
           (poll_select_confirm corrFn disk ctrl spins caps fuel (i + 2)).1,
         (poll_select_confirm corrFn disk ctrl spins caps fuel (i + 2)).2)) ∧
    (∀ j, poll_select_confirm corrFn disk ctrl spins caps 0 j = ([], .ok ((), j))) ∧
    (∀ pfuel j cx cy, check_pause_and_running (ctrl j) (spins j) = .ok () →
      check_pause_and_running (ctrl (j + 1)) (spins (j + 1)) = .ok () →
      (if (load_template disk "select_confirm").isSome then
        match_template corrFn (some (caps (j + 1)).1) (load_template disk "select_confirm")
          THRESHOLD_07
       else none) = some (cx, cy) →
      poll_select_confirm corrFn disk ctrl spins caps (pfuel + 1) j =
        ([(j + 1, Ev.click ((caps (j + 1)).2.left + cx) ((caps (j + 1)).2.top + cy))],
          .ok ((), j + 2))) ∧
    (∀ pfuel j, check_pause_and_running (ctrl j) (spins j) = .ok () →
      check_pause_and_running (ctrl (j + 1)) (spins (j + 1)) = .ok () →
      (if (load_template disk "select_confirm").isSome then
        match_template corrFn (some (caps (j + 1)).1) (load_template disk "select_confirm")
          THRESHOLD_07
       else none) = none →
      poll_select_confirm corrFn disk ctrl spins caps (pfuel + 1) j =
        poll_select_confirm corrFn disk ctrl spins caps pfuel (j + 2)) ∧
    ((if (load_template disk "select").isSome then
        match_template corrFn (some (caps i).1) (load_template disk "select") THRESHOLD_07
      else none) = none →
      (∀ cx cy, (if (load_template disk "choice").isSome then
          match_template corrFn (some (caps i).1) (load_template disk "choice") THRESHOLD_08
         else none) = some (cx, cy) →
        select_choice_or_first corrFn disk ctrl spins caps fuel i =
          ([(i + 1, Ev.click ((caps i).2.left + cx) ((caps i).2.top + cy))], .ok ((), i + 2))) ∧
      ((if (load_template disk "choice").isSome then
          match_template corrFn (some (caps i).1) (load_template disk "choice") THRESHOLD_08
        else none) = none →
        select_choice_or_first corrFn disk ctrl spins caps fuel i =
          ([(i + 1, Ev.click ((caps i).2.left + (caps i).2.width * 2 / 10)
              ((caps i).2.top + (caps i).2.height / 2))], .ok ((), i + 2)))) := by
  have hcap := captureT_ok ctrl spins caps i hch
  refine ⟨?_, ?_, ?_, ?_, ?_⟩
  · intro sx sy hsel
    rcases hc : caps i with ⟨img, rect⟩
    rw [hc] at hsel
    simp only [select_choice_or_first, hcap, hc, hsel, hch2, andThen, List.singleton_append]
  · intro j; rfl
  · intro pfuel j cx cy hchj hchj1 hcm
    have hcapj := captureT_ok ctrl spins caps (j + 1) hchj1
    rcases hcj : caps (j + 1) with ⟨img2, rect2⟩
    rw [hcj] at hcm
    simp only [poll_select_confirm, hchj, hcapj, hcj, hcm]
  · intro pfuel j hchj hchj1 hcm
    have hcapj := captureT_ok ctrl spins caps (j + 1) hchj1
    rcases hcj : caps (j + 1) with ⟨img2, rect2⟩
    rw [hcj] at hcm
    simp only [poll_select_confirm, hchj, hcapj, hcj, hcm]
  · intro hsel
    rcases hc : caps i with ⟨img, rect⟩
    rw [hc] at hsel
    refine ⟨?_, ?_⟩
    · intro cx cy hcho
      simp only [select_choice_or_first, hcap, hc, hsel, hch2, hcho]
    · intro hcho
      simp only [select_choice_or_first, hcap, hc, hsel, hch2, hcho]

/-- Counterexample to C8 as stated: on a frame where the tag icon
matches (threshold 0.8) while select and choice do not, the routine does
not click the tag position but issues the positional fallback click; the
routine never consults the tag template at all. -/
theorem C8_counterexample_tag :
    match_template widthCorr (some (flatCaps 0).1) (load_template tagDisk "tag")
      THRESHOLD_08 = some (0, 0) ∧
    select_choice_or_first widthCorr tagDisk allRun noSpins flatCaps 5 0 =
      ([(1, Ev.click 20 50)], .ok ((), 2)) := by
  constructor <;> rfl

/-- Witness for C8: with only a choice icon on screen the routine clicks
it; with only a select icon and an exhausted confirm budget the routine
clicks select and ends without error. -/
theorem C8_choice_resolution_witness :
    select_choice_or_first widthCorr choiceDisk allRun noSpins flatCaps 5 0 =
      ([(1, Ev.click 0 0)], .ok ((), 2)) ∧
    select_choice_or_first widthCorr selDisk allRun noSpins flatCaps 0 0 =
      ([(1, Ev.click 0 0)], .ok ((), 2)) := by
  constructor
  · exact ((C8_choice_resolution widthCorr choiceDisk allRun noSpins flatCaps 5 0 rfl
      rfl).2.2.2.2 rfl).1 0 0 rfl
  · have h := (C8_choice_resolution widthCorr selDisk allRun noSpins flatCaps 0 0 rfl rfl).1
      0 0 rfl
    have h0 := (C8_choice_resolution widthCorr selDisk allRun noSpins flatCaps 0 0 rfl
      rfl).2.1 2
    rw [h0] at h
    exact h

/-- An event of a sequenced routine comes from the first part or, when
that part succeeded, from the continuation. -/
lemma mem_andThen {α β : Type} (r : Proc α) (f : α → Nat → Proc β) (p : Nat × Ev)
    (hp : p ∈ (andThen r f).1) :
    p ∈ r.1 ∨ ∃ a i, r.2 = .ok (a, i) ∧ p ∈ (f a i).1 := by
  rcases r with ⟨tr, res⟩
  cases res with
  | error e => exact Or.inl hp
  | ok v =>
    obtain ⟨a, i⟩ := v
    have hv : (andThen (tr, Except.ok (a, i)) f).1 = tr ++ (f a i).1 := rfl
    rw [hv] at hp
    rcases List.mem_append.mp hp with h | h
    · exact Or.inl h
    · exact Or.inr ⟨a, i, rfl, h⟩

/-- The refresh counter the refresh loop can reach is bounded by the
refreshes already done plus the remaining budget. -/
lemma refresh_go_le (corrFn : Mat → Mat → List (List ℚ)) (refresh_t : Option Mat)
    (ctrl : Nat → Ctrl) (spins : Nat → List Ctrl) (caps : Nat → Mat × Rect) :
    ∀ remaining refreshes i r j,
      (refresh_go corrFn refresh_t ctrl spins caps remaining refreshes i).2 = .ok (r, j) →
      r ≤ refreshes + remaining := by
  intro remaining
  induction remaining with
  | zero =>
    intro refreshes i r j h
    simp only [refresh_go, Except.ok.injEq, Prod.mk.injEq] at h
    omega
  | succ rem ih =>
    intro refreshes i r j h
    rw [refresh_go] at h
    cases hch : check_pause_and_running (ctrl i) (spins i) with
    | error e => simp only [hch] at h; simp at h
    | ok u =>
      cases u
      simp only [hch] at h
      cases hcap : captureT ctrl spins caps (i + 1) with
      | error e => simp only [hcap] at h; simp at h
      | ok v =>
        obtain ⟨⟨img, rect⟩, i2⟩ := v
        simp only [hcap] at h
        cases hm : match_template corrFn (some img) refresh_t THRESHOLD_08 with
        | none =>
          simp only [hm, Except.ok.injEq, Prod.mk.injEq] at h
          omega
        | some q =>
          obtain ⟨x, y⟩ := q
          simp only [hm, andThen] at h
          have := ih (refreshes + 1) i2 r j h
          omega

/-- The refresh loop emits only click and purchase events. -/
lemma refresh_go_events (corrFn : Mat → Mat → List (List ℚ)) (refresh_t : Option Mat)
    (ctrl : Nat → Ctrl) (spins : Nat → List Ctrl) (caps : Nat → Mat × Rect) :
    ∀ remaining refreshes i, ∀ p ∈ (refresh_go corrFn refresh_t ctrl spins caps
      remaining refreshes i).1, (∃ x y, p.2 = Ev.click x y) ∨ p.2 = Ev.purchase := by
  intro remaining
  induction remaining with
  | zero => intro refreshes i p hp; simp [refresh_go] at hp
  | succ rem ih =>
    intro refreshes i p hp
    rw [refresh_go] at hp
    cases hch : check_pause_and_running (ctrl i) (spins i) with
    | error e => simp only [hch] at hp; simp at hp
    | ok u =>
      cases u
      simp only [hch] at hp
      cases hcap : captureT ctrl spins caps (i + 1) with
      | error e => simp only [hcap] at hp; simp at hp
      | ok v =>
        obtain ⟨⟨img, rect⟩, i2⟩ := v
        simp only [hcap] at hp
        cases hm : match_template corrFn (some img) refresh_t THRESHOLD_08 with
        | none => simp only [hm] at hp; simp at hp
        | some q =>
          obtain ⟨x, y⟩ := q
          simp only [hm] at hp
          rcases mem_andThen _ _ _ hp with h | ⟨a, k, heq, h⟩
          · simp only [List.mem_cons, List.mem_singleton] at h
            rcases h with h | h | h
            · subst h; exact Or.inl ⟨rect.left + x, rect.top + y, rfl⟩
            · subst h; exact Or.inr rfl
            · simp at h
          · simp only [Except.ok.injEq, Prod.mk.injEq] at heq
            obtain ⟨-, hk⟩ := heq
            subst hk
            exact ih (refreshes + 1) i2 p h

/-- click_blank emits only a click. -/
lemma click_blank_events (ctrl : Nat → Ctrl) (spins : Nat → List Ctrl) (rect : Rect)
    (i : Nat) : ∀ p ∈ (click_blank ctrl spins rect i).1, ∃ x y, p.2 = Ev.click x y := by
  intro p hp
  rw [click_blank] at hp
  cases hch : check_pause_and_running (ctrl i) (spins i) with
  | error e => simp only [hch] at hp; simp at hp
  | ok u =>
    cases u
    simp only [hch] at hp
    simp only [List.mem_singleton] at hp
    subst hp
    exact ⟨_, _, rfl⟩

/-- click_bubble emits only a click. -/
lemma click_bubble_events (ctrl : Nat → Ctrl) (spins : Nat → List Ctrl)
    (caps : Nat → Mat × Rect) (index i : Nat) :
    ∀ p ∈ (click_bubble ctrl spins caps index i).1, ∃ x y, p.2 = Ev.click x y := by
  intro p hp
  rw [click_bubble] at hp
  cases hcap : captureT ctrl spins caps i with
  | error e => simp only [hcap] at hp; simp at hp
  | ok v =>
    obtain ⟨⟨img, rect⟩, i1⟩ := v
    simp only [hcap] at hp
    cases hch : check_pause_and_running (ctrl i1) (spins i1) with
    | error e => simp only [hch] at hp; simp at hp
    | ok u =>
      cases u
      simp only [hch] at hp
      simp only [List.mem_singleton] at hp
      subst hp
      exact ⟨_, _, rfl⟩

/-- The final-shop closing phase never toggles the pause: every event it
emits is a click or a purchase marker. -/
lemma handle_shop_close_final_events (corrFn : Mat → Mat → List (List ℚ))
    (disk : String → Option Mat) (ctrl : Nat → Ctrl) (spins : Nat → List Ctrl)
    (caps : Nat → Mat × Rect) (refresh_t back_t : Option Mat) (i : Nat) :
    ∀ p ∈ (handle_shop_close corrFn disk ctrl spins caps true refresh_t back_t i).1,
      (∃ x y, p.2 = Ev.click x y) ∨ p.2 = Ev.purchase := by
  intro p hp
  rw [handle_shop_close] at hp
  rcases mem_andThen _ _ _ hp with h | ⟨r, j, _, h⟩
  · -- events of handle_shop_exit with final_shop = true
    rw [handle_shop_exit] at h
    simp only [if_true] at h
    rcases mem_andThen _ _ _ h with h2 | ⟨r2, j2, _, h2⟩
    · exact refresh_go_events corrFn refresh_t ctrl spins caps 2 0 i p h2
    · cases hr : (r2 == 2) with
      | false => simp only [hr, Bool.false_eq_true, if_false] at h2; simp at h2
      | true =>
        simp only [hr, if_true] at h2
        cases hcap : captureT ctrl spins caps j2 with
        | error e => simp only [hcap] at h2; simp at h2
        | ok v =>
          obtain ⟨⟨img, rect⟩, j3⟩ := v
          simp only [hcap] at h2
          cases hm : match_template corrFn (some img) back_t THRESHOLD_08 with
          | none => simp only [hm] at h2; simp at h2
          | some q =>
            obtain ⟨x, y⟩ := q
            simp only [hm] at h2
            rcases mem_andThen _ _ _ h2 with h3 | ⟨a, k, _, h3⟩
            · exact Or.inl (click_blank_events ctrl spins rect j3 p h3)
            · simp only [List.mem_singleton] at h3
              subst h3
              exact Or.inl ⟨_, _, rfl⟩
  · rcases mem_andThen _ _ _ h with h2 | ⟨a, k, _, h2⟩
    · exact Or.inl (click_bubble_events ctrl spins caps 2 j p h2)
    · simp only [if_true] at h2
      cases hcl : (load_template disk "confirm").isSome with
      | false => simp only [hcl, Bool.false_eq_true, if_false] at h2; simp at h2
      | true =>
        simp only [hcl, if_true] at h2
        cases hcap : captureT ctrl spins caps k with
        | error e => simp only [hcap] at h2; simp at h2
        | ok v =>
          obtain ⟨⟨img, rect⟩, k2⟩ := v
          simp only [hcap] at h2
          cases hm : match_template corrFn (some img) (load_template disk "confirm")
              THRESHOLD_08 with
          | none => simp only [hm] at h2; simp at h2
          | some q =>
            obtain ⟨x, y⟩ := q
            simp only [hm] at h2
            simp only [List.mem_singleton] at h2
            subst h2
            exact Or.inl ⟨_, _, rfl⟩

/-- C5: refresh cycles happen only on the final shop visit: the refresh
loop performs at most 2 cycles; it stops as soon as the refresh token is
absent; each cycle detects the token, clicks it, re-runs the purchase
loops and counts the refresh; and on a non-final visit the closing phase
performs no refresh at all (refresh count 0, no purchase re-run). -/
theorem C5_final_shop_refresh (corrFn : Mat → Mat → List (List ℚ))
    (refresh_t back_t : Option Mat) (ctrl : Nat → Ctrl) (spins : Nat → List Ctrl)
    (caps : Nat → Mat × Rect) (i : Nat) :
    (∀ r j, (refresh_loop corrFn refresh_t ctrl spins caps i).2 = .ok (r, j) → r ≤ 2) ∧
    (check_pause_and_running (ctrl i) (spins i) = .ok () →
      check_pause_and_running (ctrl (i + 1)) (spins (i + 1)) = .ok () →
      match_template corrFn (some (caps (i + 1)).1) refresh_t THRESHOLD_08 = none →
      refresh_loop corrFn refresh_t ctrl spins caps i = ([], .ok (0, i + 2))) ∧
    (check_pause_and_running (ctrl i) (spins i) = .ok () →
      check_pause_and_running (ctrl (i + 1)) (spins (i + 1)) = .ok () →
      check_pause_and_running (ctrl (i + 2)) (spins (i + 2)) = .ok () →
      check_pause_and_running (ctrl (i + 3)) (spins (i + 3)) = .ok () →
      ∀ x1 y1 x2 y2,
      match_template corrFn (some (caps (i + 1)).1) refresh_t THRESHOLD_08 = some (x1, y1) →
      match_template corrFn (some (caps (i + 3)).1) refresh_t THRESHOLD_08 = some (x2, y2) →
      refresh_loop corrFn refresh_t ctrl spins caps i =
        ([(i + 1, Ev.click ((caps (i + 1)).2.left + x1) ((caps (i + 1)).2.top + y1)),
          (i + 1, Ev.purchase),
          (i + 3, Ev.click ((caps (i + 3)).2.left + x2) ((caps (i + 3)).2.top + y2)),
          (i + 3, Ev.purchase)], .ok (2, i + 4))) ∧
    ((∀ r j, (handle_shop_exit corrFn ctrl spins caps false refresh_t back_t i).2 =
        .ok (r, j) → r = 0) ∧
      ∀ p ∈ (handle_shop_exit corrFn ctrl spins caps false refresh_t back_t i).1,
        p.2 ≠ Ev.purchase) := by
  refine ⟨?_, ?_, ?_, ?_, ?_⟩
  · intro r j h
    exact refresh_go_le corrFn refresh_t ctrl spins caps 2 0 i r j h
  · intro hch hch1 hm
    have hcap := captureT_ok ctrl spins caps (i + 1) hch1
    rcases hc : caps (i + 1) with ⟨img, rect⟩
    rw [hc] at hm hcap
    simp only [refresh_loop, refresh_go, hch, hcap, hm]
  · intro hch hch1 hch2 hch3 x1 y1 x2 y2 hm1 hm2
    have hcap1 := captureT_ok ctrl spins caps (i + 1) hch1
    have hcap3 := captureT_ok ctrl spins caps (i + 3) hch3
    rcases hc1 : caps (i + 1) with ⟨img1, rect1⟩
    rcases hc3 : caps (i + 3) with ⟨img3, rect3⟩
    rw [hc1] at hm1 hcap1
    rw [hc3] at hm2 hcap3
    have h23 : i + 1 + 1 + 1 = i + 3 := by omega
    have h12 : i + 1 + 1 = i + 2 := by omega
    simp only [refresh_loop, refresh_go, hch, hcap1, hc1, hm1, andThen, h12, hch2, h23,
      hcap3, hc3, hm2]
    simp [show i + 3 + 1 = i + 4 from by omega]
  · intro r j h
    rw [handle_shop_exit] at h
    simp only [Bool.false_eq_true, if_false] at h
    cases hcap : captureT ctrl spins caps i with
    | error e => simp only [hcap] at h; simp at h
    | ok v =>
      obtain ⟨⟨img, rect⟩, i1⟩ := v
      simp only [hcap] at h
      cases hm : match_template corrFn (some img) back_t THRESHOLD_08 with
      | none =>
        simp only [hm, Except.ok.injEq, Prod.mk.injEq] at h
        omega
      | some q =>
        obtain ⟨x, y⟩ := q
        simp only [hm, Except.ok.injEq, Prod.mk.injEq] at h
        omega
  · intro p hp
    rw [handle_shop_exit] at hp
    simp only [Bool.false_eq_true, if_false] at hp
    cases hcap : captureT ctrl spins caps i with
    | error e => simp only [hcap] at hp; simp at hp
    | ok v =>
      obtain ⟨⟨img, rect⟩, i1⟩ := v
      simp only [hcap] at hp
      cases hm : match_template corrFn (some img) back_t THRESHOLD_08 with
      | none =>
        simp only [hm, List.mem_singleton] at hp
        subst hp
        simp
      | some q =>
        obtain ⟨x, y⟩ := q
        simp only [hm, List.mem_singleton] at hp
        subst hp
        simp

/-- Witness for C5: with the refresh token always matching the loop
performs exactly two click-and-purchase cycles; with it never matching
the loop stops at once with zero refreshes; the bound and the non-final
count instantiate at these runs. -/
theorem C5_final_shop_refresh_witness :
    refresh_loop widthCorr (some ⟨1, 1, []⟩) allRun noSpins flatCaps 0 =
      ([(1, Ev.click 0 0), (1, Ev.purchase), (3, Ev.click 0 0), (3, Ev.purchase)],
        .ok (2, 4)) ∧
    refresh_loop widthCorr (some ⟨1, 2, []⟩) allRun noSpins flatCaps 0 = ([], .ok (0, 2)) ∧
    (2 : Nat) ≤ 2 ∧ (0 : Nat) = 0 := by
  refine ⟨?_, ?_, ?_, ?_⟩
  · simpa using (C5_final_shop_refresh widthCorr (some ⟨1, 1, []⟩) (some ⟨1, 2, []⟩) allRun
      noSpins flatCaps 0).2.2.1 rfl rfl rfl rfl 0 0 0 0 rfl rfl
  · simpa using (C5_final_shop_refresh widthCorr (some ⟨1, 2, []⟩) (some ⟨1, 2, []⟩) allRun
      noSpins flatCaps 0).2.1 rfl rfl rfl
  · exact (C5_final_shop_refresh widthCorr (some ⟨1, 1, []⟩) (some ⟨1, 2, []⟩) allRun
      noSpins flatCaps 0).1 2 4 rfl
  · exact (C5_final_shop_refresh widthCorr (some ⟨1, 1, []⟩) (some ⟨1, 2, []⟩) allRun
      noSpins flatCaps 0).2.2.2.1 0 1 rfl

/-- C7 (amended): at shop close on a non-final visit the flow clicks the
back token when present and escalates by toggling the pause when it is
absent; on the final visit the closing phase never toggles the pause: a
missing back token there is silently ignored (and when fewer than 2
refreshes happened the back token is not even sought). -/
theorem C7_shop_exit_escalation (corrFn : Mat → Mat → List (List ℚ))
    (disk : String → Option Mat) (ctrl : Nat → Ctrl) (spins : Nat → List Ctrl)
    (caps : Nat → Mat × Rect) (refresh_t back_t : Option Mat) (i : Nat)
    (hch : check_pause_and_running (ctrl i) (spins i) = .ok ()) :
    (match_template corrFn (some (caps i).1) back_t THRESHOLD_08 = none →
      handle_shop_exit corrFn ctrl spins caps false refresh_t back_t i =
        ([(i, Ev.pauseToggled)], .ok (0, i + 1))) ∧
    (∀ x y, match_template corrFn (some (caps i).1) back_t THRESHOLD_08 = some (x, y) →
      handle_shop_exit corrFn ctrl spins caps false refresh_t back_t i =
        ([(i, Ev.click ((caps i).2.left + x) ((caps i).2.top + y))], .ok (0, i + 1))) ∧
    (∀ p ∈ (handle_shop_close corrFn disk ctrl spins caps true refresh_t back_t i).1,
      p.2 ≠ Ev.pauseToggled) := by
  have hcap := captureT_ok ctrl spins caps i hch
  refine ⟨?_, ?_, ?_⟩
  · intro hm
    rcases hc : caps i with ⟨img, rect⟩
    rw [hc] at hm hcap
    simp only [handle_shop_exit, Bool.false_eq_true, if_false, hcap, hm]
  · intro x y hm
    rcases hc : caps i with ⟨img, rect⟩
    rw [hc] at hm hcap
    simp only [handle_shop_exit, Bool.false_eq_true, if_false, hcap, hm]
  · intro p hp
    rcases handle_shop_close_final_events corrFn disk ctrl spins caps refresh_t back_t i
      p hp with ⟨x, y, h⟩ | h <;> rw [h] <;> intro hfalse <;> cases hfalse

/-- Counterexample to C7 as stated: on a final shop visit with two
successful refreshes, when the back token is absent at shop close the
flow neither pauses nor fails: the run continues silently (full trace
shown; no pauseToggled event occurs). -/
theorem C7_counterexample_final_back_absent :
    match_template widthCorr (some (flatCaps 4).1) (some ⟨1, 2, []⟩) THRESHOLD_08 = none ∧
    handle_shop_close widthCorr emptyDisk allRun noSpins flatCaps true (some ⟨1, 1, []⟩)
        (some ⟨1, 2, []⟩) 0 =
      ([(1, Ev.click 0 0), (1, Ev.purchase), (3, Ev.click 0 0), (3, Ev.purchase),
        (6, Ev.click 500 75)], .ok (2, 7)) ∧
    Ev.pauseToggled ∉
      [Ev.click 0 0, Ev.purchase, Ev.click 0 0, Ev.purchase, Ev.click 500 75] := by
  refine ⟨rfl, rfl, by decide⟩

/-- Witness for C7: on a non-final visit an absent back token toggles
the pause, a present one is clicked. -/
theorem C7_shop_exit_escalation_witness :
    handle_shop_exit widthCorr allRun noSpins flatCaps false (some ⟨1, 1, []⟩)
        (some ⟨1, 2, []⟩) 0 = ([(0, Ev.pauseToggled)], .ok (0, 1)) ∧
    handle_shop_exit widthCorr allRun noSpins flatCaps false (some ⟨1, 1, []⟩)
        (some ⟨1, 1, []⟩) 0 = ([(0, Ev.click 0 0)], .ok (0, 1)) := by
  constructor
  · exact (C7_shop_exit_escalation widthCorr emptyDisk allRun noSpins flatCaps
      (some ⟨1, 1, []⟩) (some ⟨1, 2, []⟩) 0 rfl).1 rfl
  · exact (C7_shop_exit_escalation widthCorr emptyDisk allRun noSpins flatCaps
      (some ⟨1, 1, []⟩) (some ⟨1, 1, []⟩) 0 rfl).2.1 0 0 rfl

/-- The only exception check_pause_and_running raises is the user-stop
cancellation. -/
lemma check_error_userStop (c : Ctrl) (reads : List Ctrl) (e : RFail)
    (h : check_pause_and_running c reads = .error e) : e = .userStop := by
  simp only [check_pause_and_running] at h
  by_cases h1 : (!c.running) = true
  · rw [if_pos h1] at h; cases h; rfl
  · rw [if_neg h1] at h
    by_cases h2 : (!(spin_wait c reads).running) = true
    · rw [if_pos h2] at h; cases h; rfl
    · rw [if_neg h2] at h; exact Except.noConfusion h

/-- The only exception a capture raises is the user-stop cancellation
(window discovery failures are outside the modelled environment). -/
lemma captureT_error (ctrl : Nat → Ctrl) (spins : Nat → List Ctrl) (caps : Nat → Mat × Rect)
    (i : Nat) (e : RFail) (h : captureT ctrl spins caps i = .error e) : e = .userStop := by
  rw [captureT] at h
  cases hch : check_pause_and_running (ctrl i) (spins i) with
  | error e2 =>
    rw [hch] at h
    cases h
    exact check_error_userStop _ _ _ hch
  | ok u => rw [hch] at h; exact Except.noConfusion h

/-- The polling loop of wait_and_click never raises an application
error: once its template loaded, the only exception is a user stop. -/
lemma wait_and_click_loop_no_appError (corrFn : Mat → Mat → List (List ℚ)) (t : Mat)
    (is_initial skip : Bool) (ctrl : Nat → Ctrl) (spins : Nat → List Ctrl)
    (caps : Nat → Mat × Rect) (threshold : ℚ) :
    ∀ fuel i m, (wait_and_click_loop corrFn t is_initial skip ctrl spins caps threshold
      fuel i).2 ≠ .error (.appError m) := by
  intro fuel
  induction fuel with
  | zero => intro i m h; simp [wait_and_click_loop] at h
  | succ f ih =>
    intro i m h
    rw [wait_and_click_loop] at h
    cases hch : check_pause_and_running (ctrl i) (spins i) with
    | error e =>
      simp only [hch] at h
      cases h
      have := check_error_userStop _ _ _ hch
      simp at this
    | ok u =>
      cases u
      simp only [hch] at h
      cases hskip : (is_initial && skip) with
      | true => simp only [hskip, if_true] at h; exact Except.noConfusion h
      | false =>
        simp only [hskip, Bool.false_eq_true, if_false] at h
        cases hcap : captureT ctrl spins caps (i + 1) with
        | error e =>
          simp only [hcap] at h
          cases h
          have := captureT_error _ _ _ _ _ hcap
          simp at this
        | ok v =>
          obtain ⟨⟨img, rect⟩, i2⟩ := v
          simp only [hcap] at h
          cases hm : match_template corrFn (some img) (some t) threshold with
          | none => simp only [hm] at h; exact ih i2 m h
          | some q =>
            obtain ⟨x, y⟩ := q
            simp only [hm] at h
            exact Except.noConfusion h

/-- C9 (amended): a missing or unreadable template degrades every plain
detection to a not-found result (match_template reports absent,
find_all_matches reports the empty list); wait_and_click instead fails
fast, raising its ValueError for EVERY token name whose template cannot
be loaded, not only for the three initial buttons (which are special
only in honoring the skip-initial flag); once its template loads,
wait_and_click never raises that error. -/
theorem C9_missing_template (corrFn : Mat → Mat → List (List ℚ))
    (disk : String → Option Mat) (ctrl : Nat → Ctrl) (spins : Nat → List Ctrl)
    (caps : Nat → Mat × Rect) (skip : Bool) (threshold : ℚ) (fuel i : Nat) :
    (∀ s, match_template corrFn s none threshold = none) ∧
    (∀ s, find_all_matches corrFn s none threshold = []) ∧
    (∀ name, load_template disk name = none →
      wait_and_click corrFn disk ctrl spins caps skip name threshold fuel i =
        ([], .error (.appError ("Template " ++ name ++ " not found in resources.")))) ∧
    (∀ name t m, load_template disk name = some t →
      (wait_and_click corrFn disk ctrl spins caps skip name threshold fuel i).2 ≠
        .error (.appError m)) := by
  refine ⟨?_, ?_, ?_, ?_⟩
  · intro s; cases s <;> rfl
  · intro s; cases s <;> rfl
  · intro name h
    rw [wait_and_click, h]
  · intro name t m h
    rw [wait_and_click, h]
    exact wait_and_click_loop_no_appError corrFn t (is_initial_btn name) skip ctrl spins caps
      threshold fuel i m

/-- Counterexample to C9 as stated: wait_and_click on the non-initial
token save, whose template is missing, fails fast with the ValueError
rather than degrading to not-found. -/
theorem C9_counterexample_noninitial_fail_fast :
    is_initial_btn "save" = false ∧
    wait_and_click widthCorr emptyDisk allRun noSpins flatCaps false "save" THRESHOLD_08 5 0 =
      ([], .error (.appError "Template save not found in resources.")) := by
  exact ⟨rfl, rfl⟩

/-- Witness for C9: an initial token with a missing template raises, and
a token with a loaded template never raises the application error. -/
theorem C9_missing_template_witness :
    wait_and_click widthCorr emptyDisk allRun noSpins flatCaps false "quick_start"
      THRESHOLD_08 5 0 =
      ([], .error (.appError ("Template " ++ "quick_start" ++ " not found in resources."))) ∧
    (wait_and_click widthCorr tagDisk allRun noSpins flatCaps false "tag"
      THRESHOLD_08 1 0).2 ≠ .error (.appError "m") := by
  constructor
  · exact (C9_missing_template widthCorr emptyDisk allRun noSpins flatCaps false
      THRESHOLD_08 5 0).2.2.1 "quick_start" rfl
  · exact (C9_missing_template widthCorr tagDisk allRun noSpins flatCaps false
      THRESHOLD_08 1 0).2.2.2 "tag" ⟨1, 1, []⟩ "m" rfl

/-- A control check raises the cancellation as soon as running is
false. -/
lemma check_not_running (c : Ctrl) (reads : List Ctrl) (h : c.running = false) :
    check_pause_and_running c reads = .error .userStop := by
  simp [check_pause_and_running, h]

/-- A passed control check saw the running flag set. -/
lemma check_ok_running (c : Ctrl) (reads : List Ctrl) (u : Unit)
    (h : check_pause_and_running c reads = .ok u) : c.running = true := by
  by_cases h1 : c.running = true
  · exact h1
  · exfalso
    have h2 : c.running = false := by
      cases hc : c.running
      · rfl
      · exact absurd hc h1
    rw [check_not_running c reads h2] at h
    exact Except.noConfusion h

/-- A capture raises the cancellation as soon as running is false. -/
lemma captureT_stopped (ctrl : Nat → Ctrl) (spins : Nat → List Ctrl)
    (caps : Nat → Mat × Rect) (i : Nat) (h : (ctrl i).running = false) :
    captureT ctrl spins caps i = .error .userStop := by
  rw [captureT, check_not_running (ctrl i) (spins i) h]

/-- A successful capture had a passing check at its index. -/
lemma captureT_ok_inv (ctrl : Nat → Ctrl) (spins : Nat → List Ctrl)
    (caps : Nat → Mat × Rect) (i : Nat) (v : (Mat × Rect) × Nat)
    (h : captureT ctrl spins caps i = .ok v) :
    check_pause_and_running (ctrl i) (spins i) = .ok () := by
  rw [captureT] at h
  cases hch : check_pause_and_running (ctrl i) (spins i) with
  | error e => rw [hch] at h; exact Except.noConfusion h
  | ok u => cases u; rfl

/-- An event authorized by a passing check is tagged before any point
from which the stop is permanently visible. -/
lemma auth_tag_lt (ctrl : Nat → Ctrl) (spins : Nat → List Ctrl) (k : Nat) (p : Nat × Ev)
    (hstop : ∀ j, k ≤ j → (ctrl j).running = false)
    (hauth : check_pause_and_running (ctrl p.1) (spins p.1) = .ok ()) : p.1 < k := by
  by_cases hlt : p.1 < k
  · exact hlt
  · exfalso
    have hk : k ≤ p.1 := le_of_not_lt hlt
    have := check_ok_running _ _ _ hauth
    rw [hstop p.1 hk] at this
    exact Bool.noConfusion this

/-- Every click_blank event is authorized by its check. -/
lemma auth_click_blank (ctrl : Nat → Ctrl) (spins : Nat → List Ctrl) (rect : Rect)
    (i : Nat) : ∀ p ∈ (click_blank ctrl spins rect i).1,
      check_pause_and_running (ctrl p.1) (spins p.1) = .ok () := by
  intro p hp
  rw [click_blank] at hp
  cases hch : check_pause_and_running (ctrl i) (spins i) with
  | error e => simp only [hch] at hp; simp at hp
  | ok u =>
    cases u
    simp only [hch, List.mem_singleton] at hp
    subst hp
    exact hch

/-- Every event of the blank-click burst is authorized by a check. -/
lemma auth_click_blank_burst (ctrl : Nat → Ctrl) (spins : Nat → List Ctrl) (rect : Rect) :
    ∀ n i, ∀ p ∈ (click_blank_burst ctrl spins rect n i).1,
      check_pause_and_running (ctrl p.1) (spins p.1) = .ok () := by
  intro n
  induction n with
  | zero => intro i p hp; simp [click_blank_burst] at hp
  | succ m ih =>
    intro i p hp
    rw [click_blank_burst] at hp
    rcases mem_andThen _ _ _ hp with h | ⟨a, k, _, h⟩
    · exact auth_click_blank ctrl spins rect i p h
    · exact ih k p h

/-- Every event of the refresh loop is authorized by a check. -/
lemma auth_refresh_go (corrFn : Mat → Mat → List (List ℚ)) (refresh_t : Option Mat)
    (ctrl : Nat → Ctrl) (spins : Nat → List Ctrl) (caps : Nat → Mat × Rect) :
    ∀ remaining refreshes i, ∀ p ∈ (refresh_go corrFn refresh_t ctrl spins caps
      remaining refreshes i).1,
      check_pause_and_running (ctrl p.1) (spins p.1) = .ok () := by
  intro remaining
  induction remaining with
  | zero => intro refreshes i p hp; simp [refresh_go] at hp
  | succ rem ih =>
    intro refreshes i p hp
    rw [refresh_go] at hp
    cases hch : check_pause_and_running (ctrl i) (spins i) with
    | error e => simp only [hch] at hp; simp at hp
    | ok u =>
      cases u
      simp only [hch] at hp
      cases hcap : captureT ctrl spins caps (i + 1) with
      | error e => simp only [hcap] at hp; simp at hp
      | ok v =>
        obtain ⟨⟨img, rect⟩, i2⟩ := v
        have hchk := captureT_ok_inv ctrl spins caps (i + 1) _ hcap
        simp only [hcap] at hp
        cases hm : match_template corrFn (some img) refresh_t THRESHOLD_08 with
        | none => simp only [hm] at hp; simp at hp
        | some q =>
          obtain ⟨x, y⟩ := q
          simp only [hm] at hp
          rcases mem_andThen _ _ _ hp with h | ⟨a, k, _, h⟩
          · simp only [List.mem_cons, List.mem_singleton] at h
            rcases h with h | h | h
            · subst h; exact hchk
            · subst h; exact hchk
            · simp at h
          · exact ih (refreshes + 1) k p h

/-- Every event of the note-candidate pass is authorized by a check. -/
lemma auth_note_for (corrFn : Mat → Mat → List (List ℚ)) (buy_t confirm_t : Option Mat)
    (ctrl : Nat → Ctrl) (spins : Nat → List Ctrl) (caps : Nat → Mat × Rect) :
    ∀ (cands : List (Int × Int)) i,
      ∀ p ∈ (note_for corrFn buy_t confirm_t ctrl spins caps cands i).1,
        check_pause_and_running (ctrl p.1) (spins p.1) = .ok () := by
  intro cands
  induction cands with
  | nil => intro i p hp; simp [note_for] at hp
  | cons c rest ih =>
    obtain ⟨cx, cy⟩ := c
    intro i p hp
    rw [note_for] at hp
    cases hch : check_pause_and_running (ctrl i) (spins i) with
    | error e => simp only [hch] at hp; simp at hp
    | ok u =>
      cases u
      simp only [hch] at hp
      cases hcap : captureT ctrl spins caps (i + 1) with
      | error e => simp only [hcap] at hp; simp at hp
      | ok v =>
        obtain ⟨⟨img1, rect1⟩, i2⟩ := v
        have hchk1 := captureT_ok_inv ctrl spins caps (i + 1) _ hcap
        simp only [hcap] at hp
        rcases mem_andThen _ _ _ hp with h | ⟨a, j, heq, h⟩
        · simp only [List.mem_singleton] at h
          subst h
          exact hchk1
        · cases hcap2 : captureT ctrl spins caps j with
          | error e => simp only [hcap2] at h; simp at h
          | ok v2 =>
            obtain ⟨⟨img2, rect2⟩, j1⟩ := v2
            have hchk2 := captureT_ok_inv ctrl spins caps j _ hcap2
            simp only [hcap2] at h
            cases hm : match_template corrFn (some img2) buy_t THRESHOLD_08 with
            | none =>
              simp only [hm] at h
              exact ih j1 p h
            | some q =>
              obtain ⟨bx, byv⟩ := q
              simp only [hm] at h
              rcases mem_andThen _ _ _ h with h2 | ⟨a2, j2, heq2, h2⟩
              · simp only [List.mem_singleton] at h2
                subst h2
                exact hchk2
              · cases hcap3 : captureT ctrl spins caps j2 with
                | error e => simp only [hcap3] at h2; simp at h2
                | ok v3 =>
                  obtain ⟨⟨img3, rect3⟩, j3⟩ := v3
                  have hchk3 := captureT_ok_inv ctrl spins caps j2 _ hcap3
                  simp only [hcap3] at h2
                  rcases mem_andThen _ _ _ h2 with h3 | ⟨a3, j4, heq3, h3⟩
                  · split at h3
                    · simp only [List.mem_singleton] at h3
                      subst h3
                      exact hchk3
                    · simp at h3
                  · rcases mem_andThen _ _ _ h3 with h4 | ⟨a4, j5, heq4, h4⟩
                    · exact auth_click_blank_burst ctrl spins rect3 20 j4 p h4
                    · simp at h4

/-- Every event of the note purchase loop is authorized by a check. -/
lemma auth_note_loop (corrFn : Mat → Mat → List (List ℚ))
    (note_t sold_t buy_t confirm_t : Option Mat) (ctrl : Nat → Ctrl)
    (spins : Nat → List Ctrl) (caps : Nat → Mat × Rect) :
    ∀ fuel i, ∀ p ∈ (note_loop corrFn note_t sold_t buy_t confirm_t ctrl spins caps
      fuel i).1, check_pause_and_running (ctrl p.1) (spins p.1) = .ok () := by
  intro fuel
  induction fuel with
  | zero => intro i p hp; simp [note_loop] at hp
  | succ f ih =>
    intro i p hp
    rw [note_loop] at hp
    cases hch : check_pause_and_running (ctrl i) (spins i) with
    | error e => simp only [hch] at hp; simp at hp
    | ok u =>
      cases u
      simp only [hch] at hp
      cases hcap : captureT ctrl spins caps (i + 1) with
      | error e => simp only [hcap] at hp; simp at hp
      | ok v =>
        obtain ⟨⟨img, rect⟩, i2⟩ := v
        simp only [hcap] at hp
        repeat' split at hp
        all_goals first
          | simp at hp
          | (rcases mem_andThen _ _ _ hp with h | ⟨a, j, heq, h⟩
             · exact auth_note_for corrFn buy_t confirm_t ctrl spins caps _ i2 p h
             · split at h
               · exact ih j p h
               · simp at h)

/-- Every event of the select_confirm poll is authorized by a check. -/
lemma auth_poll_select_confirm (corrFn : Mat → Mat → List (List ℚ))
    (disk : String → Option Mat) (ctrl : Nat → Ctrl) (spins : Nat → List Ctrl)
    (caps : Nat → Mat × Rect) :
    ∀ fuel i, ∀ p ∈ (poll_select_confirm corrFn disk ctrl spins caps fuel i).1,
      check_pause_and_running (ctrl p.1) (spins p.1) = .ok () := by
  intro fuel
  induction fuel with
  | zero => intro i p hp; simp [poll_select_confirm] at hp
  | succ f ih =>
    intro i p hp
    rw [poll_select_confirm] at hp
    cases hch : check_pause_and_running (ctrl i) (spins i) with
    | error e => simp only [hch] at hp; simp at hp
    | ok u =>
      cases u
      simp only [hch] at hp
      cases hcap : captureT ctrl spins caps (i + 1) with
      | error e => simp only [hcap] at hp; simp at hp
      | ok v =>
        obtain ⟨⟨img2, rect2⟩, i2⟩ := v
        have hchk := captureT_ok_inv ctrl spins caps (i + 1) _ hcap
        simp only [hcap] at hp
        split at hp
        · simp only [List.mem_singleton] at hp
          subst hp
          exact hchk
        · exact ih i2 p hp

/-- Every event of the choice-resolution routine is authorized by a
check. -/
lemma auth_select_choice_or_first (corrFn : Mat → Mat → List (List ℚ))
    (disk : String → Option Mat) (ctrl : Nat → Ctrl) (spins : Nat → List Ctrl)
    (caps : Nat → Mat × Rect) (fuel i : Nat) :
    ∀ p ∈ (select_choice_or_first corrFn disk ctrl spins caps fuel i).1,
      check_pause_and_running (ctrl p.1) (spins p.1) = .ok () := by
  intro p hp
  rw [select_choice_or_first] at hp
  cases hcap : captureT ctrl spins caps i with
  | error e => simp only [hcap] at hp; simp at hp
  | ok v =>
    obtain ⟨⟨img, rect⟩, i1⟩ := v
    simp only [hcap] at hp
    cases hch2 : check_pause_and_running (ctrl i1) (spins i1) with
    | error e => simp only [hch2] at hp; simp at hp
    | ok u =>
      cases u
      simp only [hch2] at hp
      split at hp
      · rcases mem_andThen _ _ _ hp with h | ⟨a, j, heq, h⟩
        · simp only [List.mem_singleton] at h
          subst h
          exact hch2
        · exact auth_poll_select_confirm corrFn disk ctrl spins caps fuel j p h
      · split at hp
        · simp only [List.mem_singleton] at hp
          subst hp
          exact hch2
        · simp only [List.mem_singleton] at hp
          subst hp
          exact hch2

/-- Every event of the climbing decision step is authorized by a
check. -/
lemma auth_climb_step (corrFn : Mat → Mat → List (List ℚ)) (disk : String → Option Mat)
    (ctrl : Nat → Ctrl) (spins : Nat → List Ctrl) (caps : Nat → Mat × Rect) (i n : Nat) :
    ∀ p ∈ (climb_step corrFn disk ctrl spins caps i n).1,
      check_pause_and_running (ctrl p.1) (spins p.1) = .ok () := by
  intro p hp
  rw [climb_step] at hp
  cases hcap : captureT ctrl spins caps i with
  | error e => simp only [hcap] at hp; simp at hp
  | ok v =>
    obtain ⟨⟨img, rect⟩, i1⟩ := v
    have hchk1 := captureT_ok_inv ctrl spins caps i _ hcap
    simp only [hcap] at hp
    split at hp
    · split at hp
      · cases hcap2 : captureT ctrl spins caps i1 with
        | error e =>
          simp only [hcap2] at hp
          simp only [List.mem_singleton] at hp
          subst hp
          exact hchk1
        | ok v2 =>
          obtain ⟨⟨img2, rect2⟩, i2⟩ := v2
          have hchk2 := captureT_ok_inv ctrl spins caps i1 _ hcap2
          simp only [hcap2] at hp
          split at hp
          · simp only [List.mem_append, List.mem_singleton] at hp
            rcases hp with hp | hp <;> subst hp
            · exact hchk1
            · exact hchk2
          · simp only [List.mem_singleton] at hp
            subst hp
            exact hchk1
      · simp only [List.mem_singleton] at hp
        subst hp
        exact hchk1
    · repeat' split at hp
      all_goals (simp only [List.mem_singleton] at hp; subst hp; exact hchk1)

/-- Every event of the climbing loop is authorized by a check. -/
lemma auth_climb_loop (corrFn : Mat → Mat → List (List ℚ)) (disk : String → Option Mat)
    (ctrl : Nat → Ctrl) (spins : Nat → List Ctrl) (caps : Nat → Mat × Rect) :
    ∀ fuel i n, ∀ p ∈ (climb_loop corrFn disk ctrl spins caps fuel i n).1,
      check_pause_and_running (ctrl p.1) (spins p.1) = .ok () := by
  intro fuel
  induction fuel with
  | zero => intro i n p hp; simp [climb_loop] at hp
  | succ f ih =>
    intro i n p hp
    rw [climb_loop] at hp
    cases hch : check_pause_and_running (ctrl i) (spins i) with
    | error e => simp only [hch] at hp; simp at hp
    | ok u =>
      cases u
      simp only [hch] at hp
      cases hcap : captureT ctrl spins caps (i + 1) with
      | error e => simp only [hcap] at hp; simp at hp
      | ok v =>
        obtain ⟨fr, i2⟩ := v
        have hchk := captureT_ok_inv ctrl spins caps (i + 1) _ hcap
        simp only [hcap] at hp
        rcases mem_andThen _ _ _ hp with h | ⟨a, j, heq, h⟩
        · simp only [List.mem_singleton] at h
          subst h
          exact hchk
        · rcases mem_andThen _ _ _ h with h2 | ⟨a2, j2, heq2, h2⟩
          · exact auth_climb_step corrFn disk ctrl spins caps j n p h2
          · split at h2
            · simp at h2
            · exact ih j2 a2.1 p h2

/-- The note purchase loop unwinds at its first suspension point once
running is false, emitting nothing. -/
lemma note_loop_stopped (corrFn : Mat → Mat → List (List ℚ))
    (note_t sold_t buy_t confirm_t : Option Mat) (ctrl : Nat → Ctrl)
    (spins : Nat → List Ctrl) (caps : Nat → Mat × Rect) (fuel i : Nat)
    (h : (ctrl i).running = false) :
    note_loop corrFn note_t sold_t buy_t confirm_t ctrl spins caps (fuel + 1) i =
      ([], .error .userStop) := by
  simp only [note_loop, check_not_running (ctrl i) (spins i) h]

/-- The choice-resolution routine unwinds at its first suspension point
once running is false, emitting nothing. -/
lemma select_choice_stopped (corrFn : Mat → Mat → List (List ℚ))
    (disk : String → Option Mat) (ctrl : Nat → Ctrl) (spins : Nat → List Ctrl)
    (caps : Nat → Mat × Rect) (fuel i : Nat) (h : (ctrl i).running = false) :
    select_choice_or_first corrFn disk ctrl spins caps fuel i = ([], .error .userStop) := by
  simp only [select_choice_or_first, captureT_stopped ctrl spins caps i h]

/-- The refresh loop unwinds at its first suspension point once running
is false, emitting nothing. -/
lemma refresh_loop_stopped (corrFn : Mat → Mat → List (List ℚ)) (refresh_t : Option Mat)
    (ctrl : Nat → Ctrl) (spins : Nat → List Ctrl) (caps : Nat → Mat × Rect) (i : Nat)
    (h : (ctrl i).running = false) :
    refresh_loop corrFn refresh_t ctrl spins caps i = ([], .error .userStop) := by
  rw [refresh_loop]
  show refresh_go corrFn refresh_t ctrl spins caps (1 + 1) 0 i = ([], .error .userStop)
  simp only [refresh_go, check_not_running (ctrl i) (spins i) h]

/-- The climbing loop unwinds at its first suspension point once running
is false, emitting nothing. -/
lemma climb_loop_stopped (corrFn : Mat → Mat → List (List ℚ)) (disk : String → Option Mat)
    (ctrl : Nat → Ctrl) (spins : Nat → List Ctrl) (caps : Nat → Mat × Rect) (fuel i n : Nat)
    (h : (ctrl i).running = false) :
    climb_loop corrFn disk ctrl spins caps (fuel + 1) i n = ([], .error .userStop) := by
  simp only [climb_loop, check_not_running (ctrl i) (spins i) h]

/-- The driver attempts no further run after the one that raised the
user stop. -/
lemma driver_go_userStop (outcome : Nat → RunOutcome) (runningAt : Nat → Bool) :
    ∀ remaining start j, start ≤ j → j < start + remaining →
      (∀ l, start ≤ l → l < j → runningAt l = true ∧ outcome l ≠ .userStop) →
      runningAt j = true → outcome j = .userStop →
      driver_go outcome runningAt remaining start = j + 1 := by
  intro remaining
  induction remaining with
  | zero =>
    intro start j h1 h2 h3 h4 h5
    exact absurd h2 (by omega)
  | succ rem ih =>
    intro start j h1 h2 h3 h4 h5
    rw [driver_go]
    by_cases hsj : start = j
    · subst hsj
      rw [if_pos h4, h5]
    · have hlt : start < j := lt_of_le_of_ne h1 hsj
      have hrs := h3 start (le_refl _) hlt
      rw [if_pos hrs.1]
      cases ho : outcome start with
      | userStop => exact absurd ho hrs.2
      | finished =>
        exact ih (start + 1) j hlt (by omega) (fun l hl1 hl2 => h3 l (by omega) hl2) h4 h5
      | crashed =>
        exact ih (start + 1) j hlt (by omega) (fun l hl1 hl2 => h3 l (by omega) hl2) h4 h5

/-- C6: once the running flag is false, the control check raises the
cooperative cancellation; each modelled loop of the claim (note purchase
loop, shop-flow refresh loop, choice-resolution routine, climbing run
controller) observes the stop at its very next suspension point and
unwinds with the cancellation emitting nothing further; every event any
of them ever emits carries the tag of a suspension point at which the
run was still live, so no click is issued at or after a point from which
the stop is permanently visible; and the process driver attempts no
further run after the one that raised a user stop. -/
theorem C6_cooperative_cancellation :
    (∀ (c : Ctrl) (reads : List Ctrl), c.running = false →
      check_pause_and_running c reads = .error .userStop) ∧
    (∀ (corrFn : Mat → Mat → List (List ℚ)) (note_t sold_t buy_t confirm_t : Option Mat)
      ctrl spins caps fuel i, (ctrl i).running = false →
      note_loop corrFn note_t sold_t buy_t confirm_t ctrl spins caps (fuel + 1) i =
        ([], .error .userStop)) ∧
    (∀ (corrFn : Mat → Mat → List (List ℚ)) (note_t sold_t buy_t confirm_t : Option Mat)
      ctrl spins caps k fuel i, (∀ j, k ≤ j → (ctrl j).running = false) →
      ∀ p ∈ (note_loop corrFn note_t sold_t buy_t confirm_t ctrl spins caps fuel i).1,
        p.1 < k) ∧
    (∀ (corrFn : Mat → Mat → List (List ℚ)) (disk : String → Option Mat)
      ctrl spins caps fuel i, (ctrl i).running = false →
      select_choice_or_first corrFn disk ctrl spins caps fuel i = ([], .error .userStop)) ∧
    (∀ (corrFn : Mat → Mat → List (List ℚ)) (disk : String → Option Mat)
      ctrl spins caps k fuel i, (∀ j, k ≤ j → (ctrl j).running = false) →
      ∀ p ∈ (select_choice_or_first corrFn disk ctrl spins caps fuel i).1, p.1 < k) ∧
    (∀ (corrFn : Mat → Mat → List (List ℚ)) (refresh_t : Option Mat) ctrl spins caps i,
      (ctrl i).running = false →
      refresh_loop corrFn refresh_t ctrl spins caps i = ([], .error .userStop)) ∧
    (∀ (corrFn : Mat → Mat → List (List ℚ)) (refresh_t : Option Mat) ctrl spins caps k i,
      (∀ j, k ≤ j → (ctrl j).running = false) →
      ∀ p ∈ (refresh_loop corrFn refresh_t ctrl spins caps i).1, p.1 < k) ∧
    (∀ (corrFn : Mat → Mat → List (List ℚ)) (disk : String → Option Mat)
      ctrl spins caps fuel i n, (ctrl i).running = false →
      climb_loop corrFn disk ctrl spins caps (fuel + 1) i n = ([], .error .userStop)) ∧
    (∀ (corrFn : Mat → Mat → List (List ℚ)) (disk : String → Option Mat)
      ctrl spins caps k fuel i n, (∀ j, k ≤ j → (ctrl j).running = false) →
      ∀ p ∈ (climb_loop corrFn disk ctrl spins caps fuel i n).1, p.1 < k) ∧
    (∀ (outcome : Nat → RunOutcome) (runningAt : Nat → Bool) j, j < MAX_RUNS →
      (∀ l, l < j → runningAt l = true ∧ outcome l ≠ .userStop) →
      runningAt j = true → outcome j = .userStop →
      driver_loop outcome runningAt = j + 1) := by
  refine ⟨check_not_running, note_loop_stopped, ?_, select_choice_stopped, ?_,
    refresh_loop_stopped, ?_, climb_loop_stopped, ?_, ?_⟩
  · intro corrFn note_t sold_t buy_t confirm_t ctrl spins caps k fuel i hstop p hp
    exact auth_tag_lt ctrl spins k p hstop
      (auth_note_loop corrFn note_t sold_t buy_t confirm_t ctrl spins caps fuel i p hp)
  · intro corrFn disk ctrl spins caps k fuel i hstop p hp
    exact auth_tag_lt ctrl spins k p hstop
      (auth_select_choice_or_first corrFn disk ctrl spins caps fuel i p hp)
  · intro corrFn refresh_t ctrl spins caps k i hstop p hp
    exact auth_tag_lt ctrl spins k p hstop
      (auth_refresh_go corrFn refresh_t ctrl spins caps 2 0 i p hp)
  · intro corrFn disk ctrl spins caps k fuel i n hstop p hp
    exact auth_tag_lt ctrl spins k p hstop
      (auth_climb_loop corrFn disk ctrl spins caps fuel i n p hp)
  · intro outcome runningAt j h1 h2 h3 h4
    exact driver_go_userStop outcome runningAt MAX_RUNS 0 j (Nat.zero_le _) (by omega)
      (fun l _ hl2 => h2 l hl2) h3 h4

/-- Witness for C6: the check raises at a stopped reading; each modelled
loop started at or after the stop point returns the cancellation with an
empty trace; a burst event emitted before the stop carries a tag below
the stop point; the driver with a user stop on its third run attempts
exactly 3 runs. -/
theorem C6_cooperative_cancellation_witness :
    check_pause_and_running ⟨false, false⟩ [] = .error .userStop ∧
    note_loop widthCorr none none none none stopCtrl noSpins flatCaps 4 5 =
      ([], .error .userStop) ∧
    select_choice_or_first widthCorr emptyDisk stopCtrl noSpins flatCaps 2 7 =
      ([], .error .userStop) ∧
    refresh_loop widthCorr none stopCtrl noSpins flatCaps 6 = ([], .error .userStop) ∧
    climb_loop widthCorr emptyDisk stopCtrl noSpins flatCaps 3 9 0 =
      ([], .error .userStop) ∧
    (1 : Nat) < 5 ∧
    driver_loop (fun l => if l == 2 then RunOutcome.userStop else RunOutcome.finished)
      (fun _ => true) = 3 := by
  have hstop : ∀ j, 5 ≤ j → (stopCtrl j).running = false := by
    intro j hj
    simp only [stopCtrl]
    simpa using Nat.not_lt.mpr hj
  refine ⟨(C6_cooperative_cancellation).1 ⟨false, false⟩ [] rfl,
    (C6_cooperative_cancellation).2.1 widthCorr none none none none stopCtrl noSpins
      flatCaps 3 5 rfl,
    (C6_cooperative_cancellation).2.2.2.1 widthCorr emptyDisk stopCtrl noSpins flatCaps
      2 7 rfl,
    (C6_cooperative_cancellation).2.2.2.2.2.1 widthCorr none stopCtrl noSpins flatCaps
      6 rfl,
    (C6_cooperative_cancellation).2.2.2.2.2.2.2.1 widthCorr emptyDisk stopCtrl noSpins
      flatCaps 2 9 0 rfl,
    (C6_cooperative_cancellation).2.2.2.2.2.2.2.2.1 widthCorr emptyDisk stopCtrl noSpins
      flatCaps 5 1 0 0 hstop (1, Ev.burst) (by decide),
    (C6_cooperative_cancellation).2.2.2.2.2.2.2.2.2 _ _ 2 (by decide) (by decide) rfl rfl⟩
